import Mathlib

/-! Dynamic fund rebalancing: the engine `rebalance` of `main.go` and the
operations around it.

The Go program stores money amounts, weights and rates as `float64`.  The file
holds two embeddings of the engine.

* The exact embedding (`Fund`, `Bucket`, `rebalance`, ...) idealises a finite
  `float64` as an exact rational (`ℚ`): sums, products and differences are
  exact.  The three quotients by `total` are the only places where this
  arithmetic can leave the finite numbers (when `total` is zero), so their
  results live in `FVal`, the rationals extended by `+Inf`, `-Inf` and `NaN`.
  It carries the properties that are stated in exact arithmetic or that do not
  depend on rounding.
* The `float64` embedding (namespace `F64`) rounds every operation as IEEE 754
  binary64 does.  It carries the properties whose truth depends on how the
  threshold test and the weight test round, together with the command-line
  operations and the handlers `addFund` and `updateFund`.
-/

namespace FundRebalance

/-! ## Extended values produced by a division -/

/-- A `float64` result: a finite (exact) number, an infinity, or not-a-number. -/
inductive FVal where
  | fin (q : ℚ)
  | posInf
  | negInf
  | nan
deriving DecidableEq

namespace FVal

/-- The quotient `x / y` of two finite numbers; the divisor zero is `+0`. -/
def ofDiv (x y : ℚ) : FVal :=
  if y = 0 then
    if 0 < x then posInf else if x < 0 then negInf else nan
  else fin (x / y)

/-- The difference `x - y`. -/
def sub : FVal → FVal → FVal
  | fin a, fin b => fin (a - b)
  | nan, _ => nan
  | _, nan => nan
  | posInf, posInf => nan
  | negInf, negInf => nan
  | posInf, _ => posInf
  | negInf, _ => negInf
  | fin _, posInf => negInf
  | fin _, negInf => posInf

/-- The product `x * c` with a finite factor `c`. -/
def mulFin : FVal → ℚ → FVal
  | fin a, c => fin (a * c)
  | nan, _ => nan
  | posInf, c => if 0 < c then posInf else if c < 0 then negInf else nan
  | negInf, c => if 0 < c then negInf else if c < 0 then posInf else nan

/-- The function `math.Abs`. -/
def abs : FVal → FVal
  | fin a => fin |a|
  | posInf => posInf
  | negInf => posInf
  | nan => nan

/-- The comparison `x > t` with a finite `t`; it is false for `NaN`. -/
def gtFin : FVal → ℚ → Bool
  | fin a, t => decide (t < a)
  | posInf, _ => true
  | negInf, _ => false
  | nan, _ => false

/-- The comparison `x < t` with a finite `t`; it is false for `NaN`. -/
def ltFin : FVal → ℚ → Bool
  | fin a, t => decide (a < t)
  | posInf, _ => false
  | negInf, _ => true
  | nan, _ => false

/-- Whether the value is a finite number. -/
def isFinite : FVal → Bool
  | fin _ => true
  | _ => false

end FVal

/-! ## Rendering of numbers by `fmt.Sprintf` -/

/-- The nearest natural number to `q ≥ 0`, ties going to the even one. -/
def roundHalfEven (q : ℚ) : ℕ :=
  let n := q.num.natAbs
  let d := q.den
  let k := n / d
  let r := n % d
  if 2 * r < d then k
  else if d < 2 * r then k + 1
  else if k % 2 = 0 then k else k + 1

/-- The decimal digits of `n`, padded on the left with zeros to `width`. -/
def padZero (width n : ℕ) : String :=
  let s := Nat.repr n
  String.mk (List.replicate (width - s.length) '0') ++ s

/-- The verb `%.<prec>f` on a finite number. -/
def fmtFixedQ (prec : ℕ) (q : ℚ) : String :=
  let n := roundHalfEven (|q| * (10 : ℚ) ^ prec)
  let body :=
    if prec = 0 then Nat.repr n
    else Nat.repr (n / 10 ^ prec) ++ "." ++ padZero prec (n % 10 ^ prec)
  if q < 0 then "-" ++ body else body

/-- The verb `%.<prec>f` on a `float64` result. -/
def fmtFixed (prec : ℕ) : FVal → String
  | FVal.fin q => fmtFixedQ prec q
  | FVal.posInf => "+Inf"
  | FVal.negInf => "-Inf"
  | FVal.nan => "NaN"

/-! ## Data model -/

/-- The struct `Fund` of `main.go`. -/
structure Fund where
  Name : String
  Code : String
  Current : ℚ
  Weight : ℚ
  Target : ℚ
  Diff : ℚ
  Advice : String
  Reason : String
deriving DecidableEq

/-- The struct `Bucket` of `main.go`. -/
structure Bucket where
  Name : String
  TargetRate : ℚ
  Funds : List Fund
deriving DecidableEq

/-- The advice label "buy". -/
def adviceBuy : String := "买入"

/-- The advice label "sell". -/
def adviceSell : String := "卖出"

/-- The advice label "hold". -/
def adviceHold : String := "保持不动"

/-! ## The engine -/

/-- The first loop of `rebalance`: `total += f.Current` over every fund of
every bucket. -/
def total (buckets : List Bucket) : ℚ :=
  buckets.foldl (fun acc b => b.Funds.foldl (fun acc f => acc + f.Current) acc) 0

/-- The inner loop `bucketCurrent += f.Current` over one bucket. -/
def bucketCurrent (bucket : Bucket) : ℚ :=
  bucket.Funds.foldl (fun acc f => acc + f.Current) 0

/-- The value `bucketDeviation := (bucketCurrent / total) - bucket.TargetRate`. -/
def bucketDeviation (total : ℚ) (bucket : Bucket) : FVal :=
  (FVal.ofDiv (bucketCurrent bucket) total).sub (FVal.fin bucket.TargetRate)

/-- The test `math.Abs(bucketDeviation) > threshold` of `rebalance`. -/
def outOfTolerance (total threshold : ℚ) (bucket : Bucket) : Bool :=
  (bucketDeviation total bucket).abs.gtFin threshold

/-- The body of the loop over the funds of one bucket. -/
def rebalanceFund (total threshold : ℚ) (bucket : Bucket) (fund : Fund) : Fund :=
  let bucketTarget := total * bucket.TargetRate
  let bucketDeviation := bucketDeviation total bucket
  let bucketDeviationPercent := bucketDeviation.mulFin 100
  let target := bucketTarget * fund.Weight
  let diff := target - fund.Current
  let fundCurrentPercent := (FVal.ofDiv fund.Current total).mulFin 100
  let fundTargetPercent := (FVal.ofDiv target total).mulFin 100
  let fundDeviationPercent := fundCurrentPercent.sub fundTargetPercent
  if bucketDeviation.abs.gtFin threshold then
    if 0 < diff then
      { fund with
        Target := target
        Diff := diff
        Advice := adviceBuy
        Reason :=
          "当前市值" ++ fmtFixedQ 2 fund.Current ++ "万(占比" ++ fmtFixed 1 fundCurrentPercent
            ++ "%)低于目标" ++ fmtFixedQ 2 target ++ "万(占比" ++ fmtFixed 1 fundTargetPercent
            ++ "%)，" ++ bucket.Name ++ "整体偏低" ++ fmtFixed 1 bucketDeviationPercent.abs
            ++ "%，需要买入" ++ fmtFixedQ 2 |diff| ++ "万" }
    else if diff < 0 then
      { fund with
        Target := target
        Diff := diff
        Advice := adviceSell
        Reason :=
          "当前市值" ++ fmtFixedQ 2 fund.Current ++ "万(占比" ++ fmtFixed 1 fundCurrentPercent
            ++ "%)高于目标" ++ fmtFixedQ 2 target ++ "万(占比" ++ fmtFixed 1 fundTargetPercent
            ++ "%)，" ++ bucket.Name ++ "整体偏高" ++ fmtFixed 1 bucketDeviationPercent.abs
            ++ "%，需要卖出" ++ fmtFixedQ 2 |diff| ++ "万" }
    else
      { fund with
        Target := target
        Diff := diff
        Advice := adviceBuy
        Reason :=
          "当前市值" ++ fmtFixedQ 2 fund.Current ++ "万符合目标配置，但" ++ bucket.Name
            ++ "整体偏低" ++ fmtFixed 1 bucketDeviationPercent.abs ++ "%，需要适量买入" }
  else
    { fund with
      Target := target
      Diff := 0
      Advice := adviceHold
      Reason :=
        if fundDeviationPercent.abs.ltFin (1 / 2) then
          "当前市值" ++ fmtFixedQ 2 fund.Current ++ "万(占比" ++ fmtFixed 1 fundCurrentPercent
            ++ "%)与目标" ++ fmtFixedQ 2 target ++ "万(占比" ++ fmtFixed 1 fundTargetPercent
            ++ "%)基本一致，无需调整"
        else
          "虽然偏离目标" ++ fmtFixed 1 fundDeviationPercent.abs ++ "%，但" ++ bucket.Name
            ++ "整体偏差" ++ fmtFixed 1 bucketDeviationPercent.abs ++ "%在阈值范围内，暂不调整" }

/-- The body of the loop over the buckets: every fund of the bucket is
rewritten, the bucket's own fields stay. -/
def rebalanceBucket (total threshold : ℚ) (bucket : Bucket) : Bucket :=
  { bucket with Funds := bucket.Funds.map (rebalanceFund total threshold bucket) }

/-- The function `rebalance` of `main.go`. -/
def rebalance (buckets : List Bucket) (threshold : ℚ) : List Bucket :=
  buckets.map (rebalanceBucket (total buckets) threshold)

/-- The loop of `performRebalance` that sums `fund.Current` over the result
into `totalValue`. -/
def totalValue (results : List Bucket) : ℚ :=
  results.foldl (fun acc bucket => bucket.Funds.foldl (fun acc fund => acc + fund.Current) acc) 0

/-! ## Example portfolios -/

/-- A fund as the caller supplies it: the computed fields are still blank. -/
def mkFund (name code : String) (current weight : ℚ) : Fund :=
  { Name := name, Code := code, Current := current, Weight := weight,
    Target := 0, Diff := 0, Advice := "", Reason := "" }

/-- First bucket of scenario B: rate 0.5, one fund holding 80 with weight 1. -/
def bucketB1 : Bucket :=
  { Name := "短期", TargetRate := 1 / 2, Funds := [mkFund "甲" "000001" 80 1] }

/-- Second bucket of scenario B: rate 0.5, one fund holding 20 with weight 1. -/
def bucketB2 : Bucket :=
  { Name := "长期", TargetRate := 1 / 2, Funds := [mkFund "乙" "000002" 20 1] }

/-- Two buckets with rates 0.5/0.5, holding 80 and 20 (total 100). -/
def scenarioB : List Bucket := [bucketB1, bucketB2]

/-- A bucket that is ten points underweight although its first fund sits
exactly on its target (total 200, bucket target 100, fund target 50). -/
def bucketOnTarget : Bucket :=
  { Name := "短期", TargetRate := 1 / 2,
    Funds := [mkFund "甲" "000001" 50 (1 / 2), mkFund "乙" "000002" 30 (1 / 2)] }

/-- The portfolio around `bucketOnTarget`: the other bucket holds 120. -/
def portfolioOnTarget : List Bucket :=
  [ bucketOnTarget,
    { Name := "长期", TargetRate := 1 / 2, Funds := [mkFund "丙" "000003" 120 1] } ]

/-- A full portfolio (total 100) whose only fund carries weight 0.5. -/
def portfolioHalfWeight : List Bucket :=
  [ { Name := "短期", TargetRate := 1, Funds := [mkFund "甲" "000001" 100 (1 / 2)] } ]

/-- Scenario B as a prior run might have left it: same inputs, but the
computed fields of the funds carry old values. -/
def scenarioBStale : List Bucket :=
  [ { Name := "短期", TargetRate := 1 / 2,
      Funds := [{ Name := "甲", Code := "000001", Current := 80, Weight := 1,
                  Target := 7, Diff := -3, Advice := "保持不动", Reason := "旧" }] },
    { Name := "长期", TargetRate := 1 / 2,
      Funds := [{ Name := "乙", Code := "000002", Current := 20, Weight := 1,
                  Target := 99, Diff := 5, Advice := "卖出", Reason := "旧" }] } ]

/-! ## Aggregates and projections used to state properties -/

/-- Sum of `Target` over all funds of all buckets. -/
def sumTargets (buckets : List Bucket) : ℚ :=
  (buckets.map (fun b => (b.Funds.map Fund.Target).sum)).sum

/-- Sum of `TargetRate` over all buckets. -/
def sumRates (buckets : List Bucket) : ℚ :=
  (buckets.map Bucket.TargetRate).sum

/-- Sum of the weights of the funds of one bucket. -/
def sumWeights (bucket : Bucket) : ℚ :=
  (bucket.Funds.map Fund.Weight).sum

/-- The fields of a fund that the caller supplies and the engine only reads. -/
def fundInputs (f : Fund) : String × String × ℚ × ℚ :=
  (f.Name, f.Code, f.Current, f.Weight)

/-- The fields of a bucket that the engine only reads, funds in order. -/
def bucketInputs (b : Bucket) : String × ℚ × List (String × String × ℚ × ℚ) :=
  (b.Name, b.TargetRate, b.Funds.map fundInputs)

/-- Sum of `Diff` over all funds of all buckets. -/
def sumDiffs (buckets : List Bucket) : ℚ :=
  (buckets.map (fun b => (b.Funds.map Fund.Diff).sum)).sum

/-- Scenario A: one bucket with rate 1.0 and two funds of weight 0.5 holding
60 and 40. -/
def bucketA : Bucket :=
  { Name := "短期", TargetRate := 1,
    Funds := [mkFund "甲" "000001" 60 (1 / 2), mkFund "乙" "000002" 40 (1 / 2)] }

/-- The portfolio of scenario A (total 100). -/
def scenarioA : List Bucket := [bucketA]

/-- A bucket whose only fund holds nothing. -/
def bucketZero : Bucket :=
  { Name := "短期", TargetRate := 1, Funds := [mkFund "甲" "000001" 0 1] }

/-- A portfolio whose total value is zero. -/
def portfolioZero : List Bucket := [bucketZero]

/-! ## The stored model of `database.go` and `performRebalance`

The time stamps of the rows are left out; `dbBuckets` is the list that
`getAllBucketsFromDB` returns (buckets by id, each with its funds by id). -/

/-- The struct `DBFund` of `database.go`. -/
structure DBFund where
  ID : Int
  BucketID : Int
  Name : String
  Code : String
  Current : ℚ
  Weight : ℚ
  Target : ℚ
  Diff : ℚ
  Advice : String
deriving DecidableEq

/-- The struct `DBBucket` of `database.go`. -/
structure DBBucket where
  ID : Int
  Name : String
  TargetRate : ℚ
  Funds : List DBFund
deriving DecidableEq

/-- The struct `RebalanceSuggestion` of `database.go`, without the columns
that the database fills in. -/
structure RebalanceSuggestion where
  FundID : Int
  FundName : String
  FundCode : String
  CurrentValue : ℚ
  TargetValue : ℚ
  DiffValue : ℚ
  Advice : String
  Reason : String
deriving DecidableEq

/-- The function `convertDBBucketsToAPIBuckets` of `database.go`. -/
def convertDBBucketsToAPIBuckets (dbBuckets : List DBBucket) : List Bucket :=
  dbBuckets.map (fun dbBucket =>
    { Name := dbBucket.Name
      TargetRate := dbBucket.TargetRate
      Funds := dbBucket.Funds.map (fun dbFund =>
        { Name := dbFund.Name, Code := dbFund.Code, Current := dbFund.Current,
          Weight := dbFund.Weight, Target := dbFund.Target, Diff := dbFund.Diff,
          Advice := dbFund.Advice, Reason := "" }) })

/-- The innermost loop of `performRebalance`: the first fund of one result
bucket with the name and code of `dbFund` yields a suggestion, then `break`. -/
def suggestionInBucket (dbFund : DBFund) : List Fund → List RebalanceSuggestion
  | [] => []
  | fund :: rest =>
    if fund.Name = dbFund.Name ∧ fund.Code = dbFund.Code then
      [{ FundID := dbFund.ID, FundName := fund.Name, FundCode := fund.Code,
         CurrentValue := fund.Current, TargetValue := fund.Target, DiffValue := fund.Diff,
         Advice := fund.Advice, Reason := fund.Reason }]
    else suggestionInBucket dbFund rest

/-- The loops of `performRebalance` that build `suggestions`: for every stored
fund of every stored bucket, every result bucket is searched. -/
def buildSuggestions (dbBuckets : List DBBucket) (results : List Bucket) :
    List RebalanceSuggestion :=
  dbBuckets.foldl (fun acc dbBucket =>
    dbBucket.Funds.foldl (fun acc dbFund =>
      results.foldl (fun acc bucket => acc ++ suggestionInBucket dbFund bucket.Funds) acc)
      acc) []

/-- The handler `performRebalance` of `server.go` on a request that parsed:
the result sent back, the total value and the suggestions handed to
`saveRebalanceRecord`. -/
def performRebalance (reqThreshold : ℚ) (dbBuckets : List DBBucket) :
    List Bucket × ℚ × List RebalanceSuggestion :=
  let threshold := if reqThreshold ≤ 0 then 1 / 20 else reqThreshold
  let buckets := convertDBBucketsToAPIBuckets dbBuckets
  let results := rebalance buckets threshold
  (results, totalValue results, buildSuggestions dbBuckets results)

/-- The number of stored funds. -/
def countFunds (dbBuckets : List DBBucket) : ℕ :=
  (dbBuckets.map (fun b => b.Funds.length)).sum

/-- Two stored buckets that hold the same fund (same name and code), with
the values 80 and 20. -/
def dbSameFundTwice : List DBBucket :=
  [ { ID := 1, Name := "短期", TargetRate := 1 / 2,
      Funds := [⟨1, 1, "甲", "000001", 80, 1, 0, 0, ""⟩] },
    { ID := 2, Name := "长期", TargetRate := 1 / 2,
      Funds := [⟨2, 2, "甲", "000001", 20, 1, 0, 0, ""⟩] } ]

/-! ## Binary64 arithmetic

The second embedding keeps the rounding of `float64`.  A finite `float64` is
the rational it denotes; every operation computes the exact result and rounds
it to the nearest `float64`, ties to the even mantissa, with gradual underflow
and overflow to an infinity, as IEEE 754 prescribes.  The sign of a zero is
not tracked: in the engine it can only change the sign printed in front of a
zero inside a reason text (the divisor `total` is never `-0`). -/

/-- The power `2 ^ e` for an integer exponent. -/
def pow2 (e : Int) : ℚ :=
  if 0 ≤ e then ((2 ^ e.toNat : ℕ) : ℚ) else 1 / ((2 ^ (-e).toNat : ℕ) : ℚ)

/-- Halving `n` until it is below 2, counting the steps (at most `fuel`). -/
def halvings : ℕ → ℕ → ℕ
  | 0, _ => 0
  | fuel + 1, n => if n < 2 then 0 else halvings fuel (n / 2) + 1

/-- The position of the leading bit of `n`: the `k` with `2 ^ k ≤ n < 2 ^ (k + 1)`,
for `n > 0`. -/
def ilog2 (n : ℕ) : ℕ :=
  halvings n n

/-- The exponent `e` with `2 ^ e ≤ a < 2 ^ (e + 1)`, for `a > 0`: it is the
difference of the leading bit positions of numerator and denominator, or one
less. -/
def floorLog2 (a : ℚ) : Int :=
  let e0 : Int := (ilog2 a.num.natAbs : Int) - (ilog2 a.den : Int)
  if pow2 e0 ≤ a then e0 else e0 - 1

/-- The spacing of the `float64` values around `a > 0`: 53 bits of mantissa,
exponents from -1022 (below, the spacing stays `2 ^ -1074`). -/
def quantum64 (a : ℚ) : ℚ :=
  pow2 (max (floorLog2 a) (-1022) - 52)

/-- The multiple of the spacing nearest to `a > 0`, ties to the even one. -/
def roundMag (a : ℚ) : ℚ :=
  (roundHalfEven (a / quantum64 a) : ℚ) * quantum64 a

/-- Rounding of an exact result to `float64`; a magnitude that rounds to
`2 ^ 1024` or more overflows to an infinity. -/
def round64 (q : ℚ) : FVal :=
  if q = 0 then FVal.fin 0
  else
    let r := roundMag |q|
    if pow2 1024 ≤ r then (if q < 0 then FVal.negInf else FVal.posInf)
    else FVal.fin (if q < 0 then -r else r)

namespace FVal

/-- The number a finite value denotes (0 for the other values). -/
def toRat : FVal → ℚ
  | fin q => q
  | _ => 0

/-- The negation `-x`. -/
def neg : FVal → FVal
  | fin a => fin (-a)
  | posInf => negInf
  | negInf => posInf
  | nan => nan

/-- The `float64` sum `x + y`. -/
def add64 : FVal → FVal → FVal
  | fin a, fin b => round64 (a + b)
  | nan, _ => nan
  | _, nan => nan
  | posInf, negInf => nan
  | negInf, posInf => nan
  | posInf, _ => posInf
  | negInf, _ => negInf
  | fin _, posInf => posInf
  | fin _, negInf => negInf

/-- The `float64` difference `x - y`. -/
def sub64 (x y : FVal) : FVal :=
  x.add64 y.neg

/-- The `float64` product `x * y`. -/
def mul64 : FVal → FVal → FVal
  | fin a, fin b => round64 (a * b)
  | nan, _ => nan
  | _, nan => nan
  | posInf, fin b => if 0 < b then posInf else if b < 0 then negInf else nan
  | negInf, fin b => if 0 < b then negInf else if b < 0 then posInf else nan
  | fin a, posInf => if 0 < a then posInf else if a < 0 then negInf else nan
  | fin a, negInf => if 0 < a then negInf else if a < 0 then posInf else nan
  | posInf, posInf => posInf
  | posInf, negInf => negInf
  | negInf, posInf => negInf
  | negInf, negInf => posInf

/-- The `float64` quotient `x / y`; a zero divisor is `+0`. -/
def div64 : FVal → FVal → FVal
  | fin a, fin b =>
    if b = 0 then
      if 0 < a then posInf else if a < 0 then negInf else nan
    else round64 (a / b)
  | nan, _ => nan
  | _, nan => nan
  | fin _, posInf => fin 0
  | fin _, negInf => fin 0
  | posInf, fin b => if b < 0 then negInf else posInf
  | negInf, fin b => if b < 0 then posInf else negInf
  | posInf, posInf => nan
  | posInf, negInf => nan
  | negInf, posInf => nan
  | negInf, negInf => nan

/-- The comparison `x > y`; it is false when a side is `NaN`. -/
def gt64 : FVal → FVal → Bool
  | nan, _ => false
  | _, nan => false
  | fin a, fin b => decide (b < a)
  | posInf, posInf => false
  | posInf, _ => true
  | negInf, _ => false
  | fin _, posInf => false
  | fin _, negInf => true

/-- The comparison `x < y`; it is false when a side is `NaN`. -/
def lt64 (x y : FVal) : Bool :=
  y.gt64 x

end FVal

/-! ## The engine in `float64` -/

namespace F64

/-- The struct `Fund` of `main.go` with `float64` fields. -/
structure Fund where
  Name : String
  Code : String
  Current : FVal
  Weight : FVal
  Target : FVal
  Diff : FVal
  Advice : String
  Reason : String
deriving DecidableEq

/-- The struct `Bucket` of `main.go` with `float64` fields. -/
structure Bucket where
  Name : String
  TargetRate : FVal
  Funds : List Fund
deriving DecidableEq

/-- The first loop of `rebalance`: `total += f.Current`, starting from 0. -/
def total (buckets : List Bucket) : FVal :=
  buckets.foldl (fun acc b => b.Funds.foldl (fun acc f => acc.add64 f.Current) acc)
    (FVal.fin 0)

/-- The inner loop `bucketCurrent += f.Current` over one bucket. -/
def bucketCurrent (bucket : Bucket) : FVal :=
  bucket.Funds.foldl (fun acc f => acc.add64 f.Current) (FVal.fin 0)

/-- The value `bucketDeviation := (bucketCurrent / total) - bucket.TargetRate`. -/
def bucketDeviation (total : FVal) (bucket : Bucket) : FVal :=
  ((bucketCurrent bucket).div64 total).sub64 bucket.TargetRate

/-- The test `math.Abs(bucketDeviation) > threshold` of `rebalance`. -/
def outOfTolerance (total threshold : FVal) (bucket : Bucket) : Bool :=
  (bucketDeviation total bucket).abs.gt64 threshold

/-- The body of the loop over the funds of one bucket. -/
def rebalanceFund (total threshold : FVal) (bucket : Bucket) (fund : Fund) : Fund :=
  let bucketTarget := total.mul64 bucket.TargetRate
  let bucketDeviation := bucketDeviation total bucket
  let bucketDeviationPercent := bucketDeviation.mul64 (FVal.fin 100)
  let target := bucketTarget.mul64 fund.Weight
  let diff := target.sub64 fund.Current
  let fundCurrentPercent := (fund.Current.div64 total).mul64 (FVal.fin 100)
  let fundTargetPercent := (target.div64 total).mul64 (FVal.fin 100)
  let fundDeviationPercent := fundCurrentPercent.sub64 fundTargetPercent
  if bucketDeviation.abs.gt64 threshold then
    if diff.gt64 (FVal.fin 0) then
      { fund with
        Target := target
        Diff := diff
        Advice := adviceBuy
        Reason :=
          "当前市值" ++ fmtFixed 2 fund.Current ++ "万(占比" ++ fmtFixed 1 fundCurrentPercent
            ++ "%)低于目标" ++ fmtFixed 2 target ++ "万(占比" ++ fmtFixed 1 fundTargetPercent
            ++ "%)，" ++ bucket.Name ++ "整体偏低" ++ fmtFixed 1 bucketDeviationPercent.abs
            ++ "%，需要买入" ++ fmtFixed 2 diff.abs ++ "万" }
    else if diff.lt64 (FVal.fin 0) then
      { fund with
        Target := target
        Diff := diff
        Advice := adviceSell
        Reason :=
          "当前市值" ++ fmtFixed 2 fund.Current ++ "万(占比" ++ fmtFixed 1 fundCurrentPercent
            ++ "%)高于目标" ++ fmtFixed 2 target ++ "万(占比" ++ fmtFixed 1 fundTargetPercent
            ++ "%)，" ++ bucket.Name ++ "整体偏高" ++ fmtFixed 1 bucketDeviationPercent.abs
            ++ "%，需要卖出" ++ fmtFixed 2 diff.abs ++ "万" }
    else
      { fund with
        Target := target
        Diff := diff
        Advice := adviceBuy
        Reason :=
          "当前市值" ++ fmtFixed 2 fund.Current ++ "万符合目标配置，但" ++ bucket.Name
            ++ "整体偏低" ++ fmtFixed 1 bucketDeviationPercent.abs ++ "%，需要适量买入" }
  else
    { fund with
      Target := target
      Diff := FVal.fin 0
      Advice := adviceHold
      Reason :=
        if fundDeviationPercent.abs.lt64 (FVal.fin (1 / 2)) then
          "当前市值" ++ fmtFixed 2 fund.Current ++ "万(占比" ++ fmtFixed 1 fundCurrentPercent
            ++ "%)与目标" ++ fmtFixed 2 target ++ "万(占比" ++ fmtFixed 1 fundTargetPercent
            ++ "%)基本一致，无需调整"
        else
          "虽然偏离目标" ++ fmtFixed 1 fundDeviationPercent.abs ++ "%，但" ++ bucket.Name
            ++ "整体偏差" ++ fmtFixed 1 bucketDeviationPercent.abs ++ "%在阈值范围内，暂不调整" }

/-- The body of the loop over the buckets. -/
def rebalanceBucket (total threshold : FVal) (bucket : Bucket) : Bucket :=
  { bucket with Funds := bucket.Funds.map (rebalanceFund total threshold bucket) }

/-- The function `rebalance` of `main.go`. -/
def rebalance (buckets : List Bucket) (threshold : FVal) : List Bucket :=
  buckets.map (rebalanceBucket (total buckets) threshold)

/-- A fund of the exact embedding as `float64` data. -/
def ofFund (f : FundRebalance.Fund) : Fund :=
  { Name := f.Name, Code := f.Code, Current := FVal.fin f.Current,
    Weight := FVal.fin f.Weight, Target := FVal.fin f.Target, Diff := FVal.fin f.Diff,
    Advice := f.Advice, Reason := f.Reason }

/-- A bucket of the exact embedding as `float64` data. -/
def ofBucket (b : FundRebalance.Bucket) : Bucket :=
  { Name := b.Name, TargetRate := FVal.fin b.TargetRate, Funds := b.Funds.map ofFund }

end F64

namespace F64

/-! ### The command-line operations of `main.go`

The values read by `fmt.Scan` are arguments of the functions. -/

/-- The loop `totalWeight += f.Weight` over the funds of a bucket. -/
def totalWeight (funds : List Fund) : FVal :=
  funds.foldl (fun acc f => acc.add64 f.Weight) (FVal.fin 0)

/-- The struct `DBFund` of `database.go` with `float64` fields. -/
structure DBFund where
  ID : Int
  BucketID : Int
  Name : String
  Code : String
  Current : FVal
  Weight : FVal
  Target : FVal
  Diff : FVal
  Advice : String
deriving DecidableEq

/-- The struct `DBBucket` of `database.go` with `float64` fields. -/
structure DBBucket where
  ID : Int
  Name : String
  TargetRate : FVal
  Funds : List DBFund
deriving DecidableEq

/-- The contents of the tables `buckets` and `funds`. -/
structure Store where
  Buckets : List DBBucket
  NextFundID : Int
deriving DecidableEq

/-- The struct `AddFundRequest` of `server.go`. -/
structure AddFundRequest where
  BucketIndex : Int
  Name : String
  Code : String
  Current : FVal
  Weight : FVal

/-- The struct `UpdateFundRequest` of `server.go`. -/
structure UpdateFundRequest where
  BucketIndex : Int
  FundIndex : Int
  Field : String
  Value : String

/-- The fields `Success` and `Message` of the struct `Response`. -/
structure Response where
  Success : Bool
  Message : String
deriving DecidableEq

/-- The loop `totalWeight += f.Weight` of the handlers over stored funds. -/
def dbTotalWeight (funds : List DBFund) : FVal :=
  funds.foldl (fun acc f => acc.add64 f.Weight) (FVal.fin 0)

/-- The loop `if i != req.FundIndex { totalWeight += f.Weight }` of
`updateFund`, started at index `i` with the sum `acc`. -/
def dbTotalWeightExcept (skip : ℕ) : ℕ → FVal → List DBFund → FVal
  | _, acc, [] => acc
  | i, acc, f :: fs =>
    dbTotalWeightExcept skip (i + 1) (if i ≠ skip then acc.add64 f.Weight else acc) fs

/-- The function `addFundToDB`: a row with a fresh id and the column defaults
is inserted; it is read back as the last fund of its bucket. -/
def addFundToDB (store : Store) (bucketID : Int) (name code : String)
    (current weight : FVal) : Store :=
  { Buckets := store.Buckets.map (fun b =>
      if b.ID = bucketID then
        { b with
          Funds := b.Funds ++
            [{ ID := store.NextFundID, BucketID := bucketID, Name := name, Code := code,
               Current := current, Weight := weight, Target := FVal.fin 0,
               Diff := FVal.fin 0, Advice := "" }] }
      else b)
    NextFundID := store.NextFundID + 1 }

/-- The handler `addFund` of `server.go` on a request that parsed. -/
def addFund (store : Store) (req : AddFundRequest) : Response × Store :=
  let dbBuckets := store.Buckets
  if req.BucketIndex < 0 ∨ req.BucketIndex ≥ (dbBuckets.length : Int) then
    ({ Success := false, Message := "无效的桶索引" }, store)
  else
    match dbBuckets[req.BucketIndex.toNat]? with
    | none => ({ Success := false, Message := "无效的桶索引" }, store)
    | some bucket =>
      let totalWeight := dbTotalWeight bucket.Funds
      if (totalWeight.add64 req.Weight).gt64 (FVal.fin 1) then
        ({ Success := false
           Message := "权重超出限制！当前桶内总权重: " ++ fmtFixed 2 totalWeight
             ++ "，剩余可分配: " ++ fmtFixed 2 ((FVal.fin 1).sub64 totalWeight) }, store)
      else
        ({ Success := true, Message := "基金添加成功" },
          addFundToDB store bucket.ID req.Name req.Code req.Current req.Weight)

/-- The statement `UPDATE funds SET <field> = ?` on one row; a numeric column
takes the number that the text denotes. -/
def setField (parseFloat : String → Option FVal) (field value : String) (f : DBFund) :
    DBFund :=
  if field = "name" then { f with Name := value }
  else if field = "code" then { f with Code := value }
  else if field = "current" then
    match parseFloat value with
    | some v => { f with Current := v }
    | none => f
  else if field = "weight" then
    match parseFloat value with
    | some v => { f with Weight := v }
    | none => f
  else f

/-- The function `updateFundInDB`: the row with the given id is updated. -/
def updateFundInDB (parseFloat : String → Option FVal) (store : Store) (fundID : Int)
    (field value : String) : Store :=
  { store with
    Buckets := store.Buckets.map (fun b =>
      { b with
        Funds := b.Funds.map (fun f =>
          if f.ID = fundID then setField parseFloat field value f else f) }) }

/-- The block `switch req.Field` of `updateFund`: the error message of a
refused request, or `none` when the update goes on. -/
def validateUpdate (parseFloat : String → Option FVal) (bucket : DBBucket)
    (req : UpdateFundRequest) : Option String :=
  if req.Field = "name" ∨ req.Field = "code" then none
  else if req.Field = "current" then
    match parseFloat req.Value with
    | some _ => none
    | none => some "无效的数值"
  else if req.Field = "weight" then
    match parseFloat req.Value with
    | some val =>
      let totalWeight := dbTotalWeightExcept req.FundIndex.toNat 0 (FVal.fin 0) bucket.Funds
      if (totalWeight.add64 val).gt64 (FVal.fin 1) then
        some ("权重超出限制！其他基金总权重: " ++ fmtFixed 2 totalWeight
          ++ "，剩余可分配: " ++ fmtFixed 2 ((FVal.fin 1).sub64 totalWeight))
      else none
    | none => some "无效的数值"
  else some "无效的字段"

/-- The handler `updateFund` of `server.go` on a request that parsed. -/
def updateFund (parseFloat : String → Option FVal) (store : Store)
    (req : UpdateFundRequest) : Response × Store :=
  let dbBuckets := store.Buckets
  if req.BucketIndex < 0 ∨ req.BucketIndex ≥ (dbBuckets.length : Int) then
    ({ Success := false, Message := "无效的桶索引" }, store)
  else
    match dbBuckets[req.BucketIndex.toNat]? with
    | none => ({ Success := false, Message := "无效的桶索引" }, store)
    | some bucket =>
      if req.FundIndex < 0 ∨ req.FundIndex ≥ (bucket.Funds.length : Int) then
        ({ Success := false, Message := "无效的基金索引" }, store)
      else
        match bucket.Funds[req.FundIndex.toNat]? with
        | none => ({ Success := false, Message := "无效的基金索引" }, store)
        | some fund =>
          match validateUpdate parseFloat bucket req with
          | some message => ({ Success := false, Message := message }, store)
          | none =>
            ({ Success := true, Message := "基金信息更新成功" },
              updateFundInDB parseFloat store fund.ID req.Field req.Value)

end F64

/-- The `float64` that a decimal literal denotes, as a rational. -/
def double (q : ℚ) : ℚ :=
  (round64 q).toRat

/-- The threshold 0.05 as a `float64`. -/
def threshold005 : ℚ := double (5 / 100)

/-- Rates 0.5/0.5 with the values 55 and 45: the first bucket is exactly five
points above its rate. -/
def portfolioBoundary : List Bucket :=
  [ { Name := "短期", TargetRate := 1 / 2, Funds := [mkFund "甲" "000001" 55 1] },
    { Name := "长期", TargetRate := 1 / 2, Funds := [mkFund "乙" "000002" 45 1] } ]

/-- The first bucket of `portfolioBoundary`. -/
def bucketBoundary : Bucket :=
  { Name := "短期", TargetRate := 1 / 2, Funds := [mkFund "甲" "000001" 55 1] }

/-- The second bucket of `portfolioBoundary`. -/
def bucketBoundaryLow : Bucket :=
  { Name := "长期", TargetRate := 1 / 2, Funds := [mkFund "乙" "000002" 45 1] }

/-- The first bucket of `portfolioThird`: rate 0.2833333333333333, value 1. -/
def bucketThird : Bucket :=
  { Name := "短期", TargetRate := double (2833333333333333 / 10000000000000000),
    Funds := [mkFund "甲" "000001" 1 1] }

/-- Rates 0.2833333333333333/0.5 with the values 1 and 2: the first bucket
holds a third, a little more than five points above its rate. -/
def portfolioThird : List Bucket :=
  [ bucketThird,
    { Name := "长期", TargetRate := 1 / 2, Funds := [mkFund "乙" "000002" 2 1] } ]

/-- The store that `initDefaultData` creates. -/
def defaultStore : F64.Store :=
  { Buckets :=
      [ { ID := 1, Name := "短期桶（货币基金）", TargetRate := FVal.fin (double (1 / 10)),
          Funds := [⟨1, 1, "易方达货币A", "000009", FVal.fin 20, FVal.fin 1, FVal.fin 0,
            FVal.fin 0, ""⟩] },
        { ID := 2, Name := "中期桶（债券基金）", TargetRate := FVal.fin (double (3 / 10)),
          Funds := [⟨2, 2, "广发国开债7-10A", "003375", FVal.fin 50, FVal.fin (1 / 2),
              FVal.fin 0, FVal.fin 0, ""⟩,
            ⟨3, 2, "博时信用债纯债A", "050026", FVal.fin 40, FVal.fin (1 / 2), FVal.fin 0,
              FVal.fin 0, ""⟩] },
        { ID := 3, Name := "长期桶（股票基金）", TargetRate := FVal.fin (double (6 / 10)),
          Funds := [⟨4, 3, "易方达沪深300ETF联接A", "110020", FVal.fin 100,
              FVal.fin (double (4 / 10)), FVal.fin 0, FVal.fin 0, ""⟩,
            ⟨5, 3, "南方中证500ETF联接A", "160119", FVal.fin 80, FVal.fin (double (3 / 10)),
              FVal.fin 0, FVal.fin 0, ""⟩,
            ⟨6, 3, "汇添富海外互联网50ETF", "006327", FVal.fin 60,
              FVal.fin (double (3 / 10)), FVal.fin 0, FVal.fin 0, ""⟩] } ]
    NextFundID := 7 }

/-- A request to add a fund with the value -5 and the weight -0.1 to the first
bucket. -/
def negativeAddRequest : F64.AddFundRequest :=
  { BucketIndex := 0, Name := "负", Code := "999999", Current := FVal.fin (-5),
    Weight := FVal.fin (double (-1 / 10)) }

/-- A request to set the value of the first fund of the first bucket to "-5". -/
def negativeUpdateRequest : F64.UpdateFundRequest :=
  { BucketIndex := 0, FundIndex := 0, Field := "current", Value := "-5" }

/-- A reading of decimal texts that knows the text "-5"; it stands in for
`strconv.ParseFloat` in examples. -/
def parseMinusFive (s : String) : Option FVal :=
  if s = "-5" then some (FVal.fin (-5)) else none

/-! ## Basic facts about the engine -/

theorem foldl_current_eq (funds : List Fund) (acc : ℚ) :
    funds.foldl (fun acc f => acc + f.Current) acc
      = acc + (funds.map Fund.Current).sum := by
  induction funds generalizing acc with
  | nil => simp
  | cons f fs ih => simp [ih, add_assoc]

theorem foldl_total_eq (buckets : List Bucket) (acc : ℚ) :
    buckets.foldl (fun acc b => b.Funds.foldl (fun acc f => acc + f.Current) acc) acc
      = acc + (buckets.map (fun b => (b.Funds.map Fund.Current).sum)).sum := by
  induction buckets generalizing acc with
  | nil => simp
  | cons b bs ih =>
    simp only [List.foldl_cons, List.map_cons, List.sum_cons]
    rw [ih, foldl_current_eq, add_assoc]

theorem total_eq_sum (buckets : List Bucket) :
    total buckets = (buckets.map (fun b => (b.Funds.map Fund.Current).sum)).sum := by
  simp [total, foldl_total_eq]

theorem bucketCurrent_eq_sum (bucket : Bucket) :
    bucketCurrent bucket = (bucket.Funds.map Fund.Current).sum := by
  simp [bucketCurrent, foldl_current_eq]

theorem rebalanceFund_Target (T t : ℚ) (b : Bucket) (f : Fund) :
    (rebalanceFund T t b f).Target = T * b.TargetRate * f.Weight := by
  simp only [rebalanceFund]
  split_ifs <;> rfl

theorem rebalanceFund_Name (T t : ℚ) (b : Bucket) (f : Fund) :
    (rebalanceFund T t b f).Name = f.Name := by
  simp only [rebalanceFund]
  split_ifs <;> rfl

theorem rebalanceFund_Code (T t : ℚ) (b : Bucket) (f : Fund) :
    (rebalanceFund T t b f).Code = f.Code := by
  simp only [rebalanceFund]
  split_ifs <;> rfl

theorem rebalanceFund_Current (T t : ℚ) (b : Bucket) (f : Fund) :
    (rebalanceFund T t b f).Current = f.Current := by
  simp only [rebalanceFund]
  split_ifs <;> rfl

theorem rebalanceFund_Weight (T t : ℚ) (b : Bucket) (f : Fund) :
    (rebalanceFund T t b f).Weight = f.Weight := by
  simp only [rebalanceFund]
  split_ifs <;> rfl

/-- In the branch `math.Abs(bucketDeviation) > threshold` the difference is
kept and the label follows its sign, zero going with "buy". -/
theorem rebalanceFund_out (T t : ℚ) (b : Bucket) (f : Fund)
    (h : outOfTolerance T t b = true) :
    (rebalanceFund T t b f).Diff = T * b.TargetRate * f.Weight - f.Current ∧
    (rebalanceFund T t b f).Advice
      = if T * b.TargetRate * f.Weight - f.Current < 0 then adviceSell else adviceBuy := by
  unfold outOfTolerance at h
  simp only [rebalanceFund, h, if_true]
  by_cases h1 : 0 < T * b.TargetRate * f.Weight - f.Current
  · simp [h1, not_lt.mpr h1.le]
  · by_cases h2 : T * b.TargetRate * f.Weight - f.Current < 0
    · simp [h1, h2]
    · simp [h1, h2]

/-- In the `else` branch the difference is reset and the label is "hold". -/
theorem rebalanceFund_within (T t : ℚ) (b : Bucket) (f : Fund)
    (h : outOfTolerance T t b = false) :
    (rebalanceFund T t b f).Diff = 0 ∧ (rebalanceFund T t b f).Advice = adviceHold := by
  unfold outOfTolerance at h
  simp only [rebalanceFund, h]
  exact ⟨rfl, rfl⟩

theorem rebalance_getElem? (buckets : List Bucket) (t : ℚ) (bi : ℕ) :
    (rebalance buckets t)[bi]? = (buckets[bi]?).map (rebalanceBucket (total buckets) t) := by
  simp [rebalance]

theorem rebalanceBucket_getElem? (T t : ℚ) (b : Bucket) (fi : ℕ) :
    (rebalanceBucket T t b).Funds[fi]? = (b.Funds[fi]?).map (rebalanceFund T t b) := by
  simp [rebalanceBucket]

/-- With a non-zero total the test of the engine is the comparison of the
rational deviation `|bucketCurrent / total - targetRate|` with the threshold. -/
theorem outOfTolerance_iff (T t : ℚ) (b : Bucket) (hT : T ≠ 0) :
    outOfTolerance T t b = true ↔ t < |bucketCurrent b / T - b.TargetRate| := by
  simp [outOfTolerance, bucketDeviation, FVal.ofDiv, hT, FVal.sub, FVal.abs, FVal.gtFin]

/-- With a non-zero total the test fails exactly when the rational deviation
is at most the threshold. -/
theorem outOfTolerance_eq_false_iff (T t : ℚ) (b : Bucket) (hT : T ≠ 0) :
    outOfTolerance T t b = false ↔ |bucketCurrent b / T - b.TargetRate| ≤ t := by
  rw [← not_lt, ← outOfTolerance_iff T t b hT]
  simp

/-- With a zero total the quotient is `±Inf` or `NaN`: the bucket is out of
tolerance exactly when its own sum is not zero, whatever the threshold. -/
theorem outOfTolerance_zero_total (t : ℚ) (b : Bucket) :
    outOfTolerance 0 t b = true ↔ bucketCurrent b ≠ 0 := by
  unfold outOfTolerance bucketDeviation FVal.ofDiv
  rcases lt_trichotomy (bucketCurrent b) 0 with h | h | h
  · simp [h, not_lt.mpr h.le, h.ne, FVal.sub, FVal.abs, FVal.gtFin]
  · simp [h, FVal.sub, FVal.abs, FVal.gtFin]
  · simp [h, h.ne', FVal.sub, FVal.abs, FVal.gtFin]

/-! ## The target -/

/-- C3: for every portfolio, every threshold and every fund, whichever branch
is taken, the target that `rebalance` writes is
`total * bucket.TargetRate * fund.Weight`, and `total` is the sum of `Current`
over every fund of every bucket of the input. -/
theorem rebalance_target_eq (buckets : List Bucket) (threshold : ℚ)
    (bi fi : ℕ) (b : Bucket) (f : Fund)
    (hb : buckets[bi]? = some b) (hf : b.Funds[fi]? = some f) :
    (∃ b' f', (rebalance buckets threshold)[bi]? = some b' ∧ b'.Funds[fi]? = some f' ∧
      f'.Target = total buckets * b.TargetRate * f.Weight) ∧
    total buckets = (buckets.map (fun b => (b.Funds.map Fund.Current).sum)).sum := by
  refine ⟨⟨rebalanceBucket (total buckets) threshold b,
    rebalanceFund (total buckets) threshold b f, ?_, ?_, ?_⟩, total_eq_sum buckets⟩
  · rw [rebalance_getElem?, hb]; rfl
  · rw [rebalanceBucket_getElem?, hf]; rfl
  · exact rebalanceFund_Target _ _ _ _

/-- The target formula of C3 at the second fund of `portfolioOnTarget`. -/
theorem rebalance_target_eq_witness :
    (∃ b' f', (rebalance portfolioOnTarget (1 / 20))[0]? = some b' ∧
      b'.Funds[1]? = some f' ∧
      f'.Target = total portfolioOnTarget * bucketOnTarget.TargetRate
        * (mkFund "乙" "000002" 30 (1 / 2)).Weight) ∧
    total portfolioOnTarget
      = (portfolioOnTarget.map (fun b => (b.Funds.map Fund.Current).sum)).sum :=
  rebalance_target_eq portfolioOnTarget (1 / 20) 0 1 bucketOnTarget
    (mkFund "乙" "000002" 30 (1 / 2)) rfl rfl

/-! ## Sum of the targets -/

theorem sum_target_rebalanceBucket (T t : ℚ) (b : Bucket) :
    ((rebalanceBucket T t b).Funds.map Fund.Target).sum
      = T * (b.TargetRate * sumWeights b) := by
  have h : (rebalanceBucket T t b).Funds.map Fund.Target
      = b.Funds.map (fun f => T * b.TargetRate * f.Weight) := by
    simp only [rebalanceBucket, List.map_map]
    apply List.map_congr_left
    intro f _
    exact rebalanceFund_Target T t b f
  rw [h, sumWeights]
  induction b.Funds with
  | nil => simp
  | cons f fs ih => simp only [List.map_cons, List.sum_cons, ih]; ring

/-- The sum of all targets is the total times the weighted sum of the rates. -/
theorem sumTargets_rebalance (buckets : List Bucket) (t : ℚ) :
    sumTargets (rebalance buckets t)
      = total buckets * (buckets.map (fun b => b.TargetRate * sumWeights b)).sum := by
  unfold sumTargets rebalance
  generalize total buckets = T
  induction buckets with
  | nil => simp
  | cons b bs ih =>
    simp only [List.map_cons, List.sum_cons, ih, sum_target_rebalanceBucket]
    ring

/-- C4, as stated, fails: in `portfolioHalfWeight` the total is 100 > 0 and
the rates sum to 1, but the only target is 50. -/
theorem sumTargets_ne_total_mul_sumRates :
    0 < total portfolioHalfWeight ∧
    sumTargets (rebalance portfolioHalfWeight (1 / 20))
      ≠ total portfolioHalfWeight * sumRates portfolioHalfWeight := by
  rw [sumTargets_rebalance]
  norm_num [total, portfolioHalfWeight, mkFund, sumRates, sumWeights]

/-- C4, amended: for every portfolio whose total is > 0 and every threshold,
if the fund weights of every bucket sum to exactly 1, then after `rebalance`
the sum of `Target` over all funds of all buckets equals
`total * (sum of TargetRate over all buckets)`. -/
theorem sumTargets_eq_of_unit_weights (buckets : List Bucket) (t : ℚ)
    (_hpos : 0 < total buckets) (hw : ∀ b ∈ buckets, sumWeights b = 1) :
    sumTargets (rebalance buckets t) = total buckets * sumRates buckets := by
  rw [sumTargets_rebalance, sumRates]
  congr 2
  apply List.map_congr_left
  intro b hb
  rw [hw b hb, mul_one]

/-- The amended C4 on scenario B, where both buckets hold one fund of weight 1. -/
theorem sumTargets_eq_of_unit_weights_witness :
    sumTargets (rebalance scenarioB (1 / 20)) = total scenarioB * sumRates scenarioB :=
  sumTargets_eq_of_unit_weights scenarioB (1 / 20)
    (by norm_num [total, scenarioB, bucketB1, bucketB2, mkFund])
    (by
      intro b hb
      simp only [scenarioB, List.mem_cons, List.mem_singleton, List.not_mem_nil,
        or_false] at hb
      rcases hb with rfl | rfl <;> simp [sumWeights, bucketB1, bucketB2, mkFund])

/-! ## The advice labels -/

/-- C5: for every portfolio and every threshold, every fund in the result of
`rebalance` carries one of the three labels buy, sell, hold, which are three
different strings; no fund keeps an empty or any other label. -/
theorem rebalance_advice_label (buckets : List Bucket) (threshold : ℚ)
    (b' : Bucket) (f' : Fund)
    (hb : b' ∈ rebalance buckets threshold) (hf : f' ∈ b'.Funds) :
    (f'.Advice = adviceBuy ∨ f'.Advice = adviceSell ∨ f'.Advice = adviceHold) ∧
    adviceBuy ≠ adviceSell ∧ adviceBuy ≠ adviceHold ∧ adviceSell ≠ adviceHold ∧
    adviceBuy ≠ "" ∧ adviceSell ≠ "" ∧ adviceHold ≠ "" := by
  refine ⟨?_, by decide, by decide, by decide, by decide, by decide, by decide⟩
  simp only [rebalance, List.mem_map] at hb
  obtain ⟨b, _, rfl⟩ := hb
  simp only [rebalanceBucket, List.mem_map] at hf
  obtain ⟨f, _, rfl⟩ := hf
  cases h : outOfTolerance (total buckets) threshold b
  · exact Or.inr (Or.inr (rebalanceFund_within _ _ b f h).2)
  · rw [(rebalanceFund_out _ _ b f h).2]
    split_ifs
    · exact Or.inr (Or.inl rfl)
    · exact Or.inl rfl

/-- The label set of C5 at the fund of the first bucket of scenario B. -/
theorem rebalance_advice_label_witness :
    ((rebalanceFund (total scenarioB) (1 / 20) bucketB1 (mkFund "甲" "000001" 80 1)).Advice
        = adviceBuy ∨
      (rebalanceFund (total scenarioB) (1 / 20) bucketB1 (mkFund "甲" "000001" 80 1)).Advice
        = adviceSell ∨
      (rebalanceFund (total scenarioB) (1 / 20) bucketB1 (mkFund "甲" "000001" 80 1)).Advice
        = adviceHold) ∧
    adviceBuy ≠ adviceSell ∧ adviceBuy ≠ adviceHold ∧ adviceSell ≠ adviceHold ∧
    adviceBuy ≠ "" ∧ adviceSell ≠ "" ∧ adviceHold ≠ "" :=
  rebalance_advice_label scenarioB (1 / 20)
    (rebalanceBucket (total scenarioB) (1 / 20) bucketB1)
    (rebalanceFund (total scenarioB) (1 / 20) bucketB1 (mkFund "甲" "000001" 80 1))
    (by simp [rebalance, scenarioB])
    (by simp [rebalanceBucket, bucketB1])

/-! ## Threshold monotonicity -/

/-- A larger threshold flags no more buckets. -/
theorem outOfTolerance_mono (T t1 t2 : ℚ) (b : Bucket) (h : t1 ≤ t2)
    (h2 : outOfTolerance T t2 b = true) : outOfTolerance T t1 b = true := by
  unfold outOfTolerance at *
  generalize (bucketDeviation T b).abs = d at *
  cases d with
  | fin q =>
    simp only [FVal.gtFin, decide_eq_true_eq] at *
    exact lt_of_le_of_lt h h2
  | posInf => rfl
  | negInf => exact h2
  | nan => exact h2

/-- A fund is labelled hold exactly when its bucket passes the tolerance test. -/
theorem rebalanceFund_hold_iff (T t : ℚ) (b : Bucket) (f : Fund) :
    (rebalanceFund T t b f).Advice = adviceHold ↔ outOfTolerance T t b = false := by
  constructor
  · intro h
    cases hout : outOfTolerance T t b
    · rfl
    · rw [(rebalanceFund_out T t b f hout).2] at h
      split_ifs at h <;> exact absurd h (by decide)
  · intro h
    exact (rebalanceFund_within T t b f h).2

/-- C6: threshold monotonicity.  For every portfolio and thresholds
`t1 <= t2`, every fund that `rebalance` labels hold with `t1` is labelled hold
with `t2`, and every bucket that is out of tolerance for `t2` is out of
tolerance for `t1`. -/
theorem rebalance_threshold_monotone (buckets : List Bucket) (t1 t2 : ℚ) (h : t1 ≤ t2)
    (bi fi : ℕ) (b1 : Bucket) (f1 : Fund)
    (hb1 : (rebalance buckets t1)[bi]? = some b1) (hf1 : b1.Funds[fi]? = some f1)
    (hadv : f1.Advice = adviceHold) :
    (∃ b2 f2, (rebalance buckets t2)[bi]? = some b2 ∧ b2.Funds[fi]? = some f2 ∧
      f2.Advice = adviceHold) ∧
    (∀ b ∈ buckets, outOfTolerance (total buckets) t2 b = true →
      outOfTolerance (total buckets) t1 b = true) := by
  refine ⟨?_, fun b _ hb => outOfTolerance_mono _ t1 t2 b h hb⟩
  rw [rebalance_getElem?] at hb1
  cases hb : buckets[bi]? with
  | none => rw [hb] at hb1; exact absurd hb1 (by simp)
  | some b =>
    rw [hb] at hb1
    simp only [Option.map_some', Option.some.injEq] at hb1
    subst hb1
    rw [rebalanceBucket_getElem?] at hf1
    cases hf : b.Funds[fi]? with
    | none => rw [hf] at hf1; exact absurd hf1 (by simp)
    | some f =>
      rw [hf] at hf1
      simp only [Option.map_some', Option.some.injEq] at hf1
      subst hf1
      refine ⟨rebalanceBucket (total buckets) t2 b,
        rebalanceFund (total buckets) t2 b f, ?_, ?_, ?_⟩
      · rw [rebalance_getElem?, hb]; rfl
      · rw [rebalanceBucket_getElem?, hf]; rfl
      · rw [rebalanceFund_hold_iff] at hadv ⊢
        cases h2 : outOfTolerance (total buckets) t2 b
        · rfl
        · rw [outOfTolerance_mono _ t1 t2 b h h2] at hadv
          exact absurd hadv (by decide)

/-- The monotonicity of C6 on `portfolioOnTarget`, whose first bucket is ten
points off: its first fund is held at threshold 0.2 and so at 0.3. -/
theorem rebalance_threshold_monotone_witness :
    (∃ b2 f2, (rebalance portfolioOnTarget (3 / 10))[0]? = some b2 ∧
      b2.Funds[0]? = some f2 ∧ f2.Advice = adviceHold) ∧
    (∀ b ∈ portfolioOnTarget, outOfTolerance (total portfolioOnTarget) (3 / 10) b = true →
      outOfTolerance (total portfolioOnTarget) (1 / 5) b = true) :=
  rebalance_threshold_monotone portfolioOnTarget (1 / 5) (3 / 10) (by norm_num) 0 0
    (rebalanceBucket (total portfolioOnTarget) (1 / 5) bucketOnTarget)
    (rebalanceFund (total portfolioOnTarget) (1 / 5) bucketOnTarget
      (mkFund "甲" "000001" 50 (1 / 2)))
    rfl rfl
    ((rebalanceFund_hold_iff _ _ _ _).2
      (by norm_num [outOfTolerance, total, portfolioOnTarget, bucketOnTarget, mkFund,
        bucketDeviation, bucketCurrent, FVal.ofDiv, FVal.sub, FVal.abs, FVal.gtFin, abs_le]))

/-! ## What the engine leaves unchanged -/

theorem bucketCurrent_rebalanceBucket (T t : ℚ) (b : Bucket) :
    bucketCurrent (rebalanceBucket T t b) = bucketCurrent b := by
  rw [bucketCurrent_eq_sum, bucketCurrent_eq_sum]
  simp only [rebalanceBucket, List.map_map]
  congr 1
  apply List.map_congr_left
  intro f _
  exact rebalanceFund_Current T t b f

theorem total_map_rebalanceBucket (T t : ℚ) (buckets : List Bucket) :
    total (buckets.map (rebalanceBucket T t)) = total buckets := by
  rw [total_eq_sum, total_eq_sum, List.map_map]
  congr 1
  apply List.map_congr_left
  intro b _
  have h := bucketCurrent_rebalanceBucket T t b
  rw [bucketCurrent_eq_sum, bucketCurrent_eq_sum] at h
  exact h

theorem total_rebalance (buckets : List Bucket) (t : ℚ) :
    total (rebalance buckets t) = total buckets :=
  total_map_rebalanceBucket _ t buckets

theorem outOfTolerance_rebalanceBucket (T T' t t' : ℚ) (b : Bucket) :
    outOfTolerance T t (rebalanceBucket T' t' b) = outOfTolerance T t b := by
  unfold outOfTolerance bucketDeviation
  rw [bucketCurrent_rebalanceBucket]
  rfl

theorem fundInputs_rebalanceFund (T t : ℚ) (b : Bucket) (f : Fund) :
    fundInputs (rebalanceFund T t b f) = fundInputs f := by
  simp only [fundInputs, rebalanceFund_Name, rebalanceFund_Code, rebalanceFund_Current,
    rebalanceFund_Weight]

theorem bucketInputs_rebalanceBucket (T t : ℚ) (b : Bucket) :
    bucketInputs (rebalanceBucket T t b) = bucketInputs b := by
  have h : (rebalanceBucket T t b).Funds.map fundInputs = b.Funds.map fundInputs := by
    simp only [rebalanceBucket, List.map_map]
    apply List.map_congr_left
    intro f _
    exact fundInputs_rebalanceFund T t b f
  simp only [bucketInputs, h]
  rfl

/-- C8: for every portfolio and threshold, `rebalance` returns as many
buckets as it was given, in the same order, each with as many funds in the
same order; the name and target rate of every bucket and the name, code,
current value and weight of every fund are unchanged; the empty portfolio
comes back empty; and `totalValue` summed over the result is the total the
engine used. -/
theorem rebalance_frame (buckets : List Bucket) (threshold : ℚ) :
    (rebalance buckets threshold).length = buckets.length ∧
    (∀ (bi : ℕ) (b : Bucket), buckets[bi]? = some b →
      ∃ b', (rebalance buckets threshold)[bi]? = some b' ∧
        b'.Name = b.Name ∧ b'.TargetRate = b.TargetRate ∧
        b'.Funds.length = b.Funds.length ∧
        ∀ (fi : ℕ) (f : Fund), b.Funds[fi]? = some f →
          ∃ f', b'.Funds[fi]? = some f' ∧ f'.Name = f.Name ∧ f'.Code = f.Code ∧
            f'.Current = f.Current ∧ f'.Weight = f.Weight) ∧
    rebalance [] threshold = [] ∧
    totalValue (rebalance buckets threshold) = total buckets := by
  refine ⟨by simp [rebalance], ?_, rfl, total_rebalance buckets threshold⟩
  intro bi b hb
  refine ⟨rebalanceBucket (total buckets) threshold b, ?_, rfl, rfl, ?_, ?_⟩
  · rw [rebalance_getElem?, hb]; rfl
  · simp [rebalanceBucket]
  · intro fi f hf
    refine ⟨rebalanceFund (total buckets) threshold b f, ?_, rebalanceFund_Name _ _ _ _,
      rebalanceFund_Code _ _ _ _, rebalanceFund_Current _ _ _ _,
      rebalanceFund_Weight _ _ _ _⟩
    rw [rebalanceBucket_getElem?, hf]; rfl

/-! ## No stale values -/

/-- The engine reads a bucket only through its name, its rate and the sum of
its funds, and a fund only through its input fields. -/
theorem rebalanceFund_congr (T t : ℚ) (b b' : Bucket) (f f' : Fund)
    (hn : b.Name = b'.Name) (hr : b.TargetRate = b'.TargetRate)
    (hc : bucketCurrent b = bucketCurrent b') (hf : fundInputs f = fundInputs f') :
    rebalanceFund T t b f = rebalanceFund T t b' f' := by
  obtain ⟨n1, c1, cur1, w1, tg1, d1, a1, r1⟩ := f
  obtain ⟨n2, c2, cur2, w2, tg2, d2, a2, r2⟩ := f'
  simp only [fundInputs, Prod.mk.injEq] at hf
  obtain ⟨rfl, rfl, rfl, rfl⟩ := hf
  simp only [rebalanceFund, bucketDeviation, hn, hr, hc]

theorem bucketCurrent_eq_of_inputs (b b' : Bucket)
    (h : b.Funds.map fundInputs = b'.Funds.map fundInputs) :
    bucketCurrent b = bucketCurrent b' := by
  rw [bucketCurrent_eq_sum, bucketCurrent_eq_sum]
  have e : ∀ l : List Fund, l.map Fund.Current = (l.map fundInputs).map (fun i => i.2.2.1) := by
    intro l; simp [List.map_map, fundInputs, Function.comp_def]
  rw [e, e, h]

theorem map_rebalanceFund_congr (T t : ℚ) (b b' : Bucket)
    (hn : b.Name = b'.Name) (hr : b.TargetRate = b'.TargetRate)
    (hc : bucketCurrent b = bucketCurrent b') :
    ∀ l l' : List Fund, l.map fundInputs = l'.map fundInputs →
      l.map (rebalanceFund T t b) = l'.map (rebalanceFund T t b')
  | [], [], _ => rfl
  | [], _ :: _, h => by simp at h
  | _ :: _, [], h => by simp at h
  | f :: l, f' :: l', h => by
    simp only [List.map_cons, List.cons.injEq] at h ⊢
    exact ⟨rebalanceFund_congr T t b b' f f' hn hr hc h.1,
      map_rebalanceFund_congr T t b b' hn hr hc l l' h.2⟩

theorem rebalanceBucket_congr (T t : ℚ) (b b' : Bucket)
    (h : bucketInputs b = bucketInputs b') :
    rebalanceBucket T t b = rebalanceBucket T t b' := by
  simp only [bucketInputs, Prod.mk.injEq] at h
  obtain ⟨hn, hr, hfs⟩ := h
  have hc := bucketCurrent_eq_of_inputs b b' hfs
  simp only [rebalanceBucket, hn, hr,
    map_rebalanceFund_congr T t b b' hn hr hc b.Funds b'.Funds hfs]

theorem map_rebalanceBucket_congr (T t : ℚ) :
    ∀ p q : List Bucket, p.map bucketInputs = q.map bucketInputs →
      p.map (rebalanceBucket T t) = q.map (rebalanceBucket T t)
  | [], [], _ => rfl
  | [], _ :: _, h => by simp at h
  | _ :: _, [], h => by simp at h
  | b :: p, b' :: q, h => by
    simp only [List.map_cons, List.cons.injEq] at h ⊢
    exact ⟨rebalanceBucket_congr T t b b' h.1, map_rebalanceBucket_congr T t p q h.2⟩

theorem total_eq_of_inputs (p q : List Bucket)
    (h : p.map bucketInputs = q.map bucketInputs) : total p = total q := by
  rw [total_eq_sum, total_eq_sum]
  have e : ∀ l : List Bucket, l.map (fun b => (b.Funds.map Fund.Current).sum)
      = (l.map bucketInputs).map (fun i => (i.2.2.map (fun j => j.2.2.1)).sum) := by
    intro l
    simp [List.map_map, bucketInputs, fundInputs, Function.comp_def]
  rw [e, e, h]

/-- C9: no stale values.  For every threshold and any two portfolios that agree
on the bucket names and rates and on every fund's name, code, current value
and weight, position by position, `rebalance` returns the same result,
whatever the incoming `Target`, `Diff`, `Advice` and `Reason` of the funds
are: these four fields are overwritten on every run. -/
theorem rebalance_no_stale (p q : List Bucket) (threshold : ℚ)
    (h : p.map bucketInputs = q.map bucketInputs) :
    rebalance p threshold = rebalance q threshold := by
  unfold rebalance
  rw [total_eq_of_inputs p q h]
  exact map_rebalanceBucket_congr _ _ p q h

/-- The statement of C9 on scenario B and a copy of it with old computed
fields. -/
theorem rebalance_no_stale_witness :
    rebalance scenarioBStale (1 / 20) = rebalance scenarioB (1 / 20) :=
  rebalance_no_stale scenarioBStale scenarioB (1 / 20) rfl

/-! ## Scenario B -/

/-- C10: scenario B.  With threshold 0.05 the fund of the first bucket
(current 80) gets target 50, diff -30 and the label sell; the fund of the
second bucket (current 20) gets target 50, diff 30 and the label buy. -/
theorem rebalance_scenarioB :
    (rebalance scenarioB (1 / 20)).map
        (fun b => b.Funds.map (fun f => (f.Target, f.Diff, f.Advice)))
      = [[(50, -30, adviceSell)], [(50, 30, adviceBuy)]] := by
  have hT : total scenarioB = 100 := by
    norm_num [total, scenarioB, bucketB1, bucketB2, mkFund]
  have h1 : outOfTolerance 100 (1 / 20) bucketB1 = true := by
    norm_num [outOfTolerance, bucketB1, mkFund, bucketDeviation, bucketCurrent,
      FVal.ofDiv, FVal.sub, FVal.abs, FVal.gtFin, lt_abs]
  have h2 : outOfTolerance 100 (1 / 20) bucketB2 = true := by
    norm_num [outOfTolerance, bucketB2, mkFund, bucketDeviation, bucketCurrent,
      FVal.ofDiv, FVal.sub, FVal.abs, FVal.gtFin, lt_abs]
  have e1 := rebalanceFund_out 100 (1 / 20) bucketB1 (mkFund "甲" "000001" 80 1) h1
  have e2 := rebalanceFund_out 100 (1 / 20) bucketB2 (mkFund "乙" "000002" 20 1) h2
  have g1 := rebalanceFund_Target 100 (1 / 20) bucketB1 (mkFund "甲" "000001" 80 1)
  have g2 := rebalanceFund_Target 100 (1 / 20) bucketB2 (mkFund "乙" "000002" 20 1)
  unfold rebalance
  rw [hT]
  show [[((rebalanceFund 100 (1 / 20) bucketB1 (mkFund "甲" "000001" 80 1)).Target,
          (rebalanceFund 100 (1 / 20) bucketB1 (mkFund "甲" "000001" 80 1)).Diff,
          (rebalanceFund 100 (1 / 20) bucketB1 (mkFund "甲" "000001" 80 1)).Advice)],
        [((rebalanceFund 100 (1 / 20) bucketB2 (mkFund "乙" "000002" 20 1)).Target,
          (rebalanceFund 100 (1 / 20) bucketB2 (mkFund "乙" "000002" 20 1)).Diff,
          (rebalanceFund 100 (1 / 20) bucketB2 (mkFund "乙" "000002" 20 1)).Advice)]] = _
  rw [g1, g2, e1.1, e1.2, e2.1, e2.2]
  norm_num [bucketB1, bucketB2, mkFund]

/-! ## Scenario A -/

/-- C11: scenario A.  For the single bucket with rate 1.0 and two funds with
weights 0.5/0.5 holding 60 and 40, `rebalance` with threshold 0.05 computes
the bucket deviation 0 and gives both funds the label hold with diff 0. -/
theorem rebalance_scenarioA :
    bucketDeviation (total scenarioA) bucketA = FVal.fin 0 ∧
    (rebalance scenarioA (1 / 20)).map (fun b => b.Funds.map (fun f => (f.Diff, f.Advice)))
      = [[(0, adviceHold), (0, adviceHold)]] := by
  have hT : total scenarioA = 100 := by
    norm_num [total, scenarioA, bucketA, mkFund]
  have hdev : bucketDeviation 100 bucketA = FVal.fin 0 := by
    norm_num [bucketA, mkFund, bucketDeviation, bucketCurrent, FVal.ofDiv, FVal.sub]
  have hin : outOfTolerance 100 (1 / 20) bucketA = false := by
    rw [outOfTolerance, hdev]
    norm_num [FVal.abs, FVal.gtFin]
  have e1 := rebalanceFund_within 100 (1 / 20) bucketA (mkFund "甲" "000001" 60 (1 / 2)) hin
  have e2 := rebalanceFund_within 100 (1 / 20) bucketA (mkFund "乙" "000002" 40 (1 / 2)) hin
  rw [hT]
  refine ⟨hdev, ?_⟩
  unfold rebalance
  rw [hT]
  show [[((rebalanceFund 100 (1 / 20) bucketA (mkFund "甲" "000001" 60 (1 / 2))).Diff,
          (rebalanceFund 100 (1 / 20) bucketA (mkFund "甲" "000001" 60 (1 / 2))).Advice),
         ((rebalanceFund 100 (1 / 20) bucketA (mkFund "乙" "000002" 40 (1 / 2))).Diff,
          (rebalanceFund 100 (1 / 20) bucketA (mkFund "乙" "000002" 40 (1 / 2))).Advice)]] = _
  rw [e1.1, e1.2, e2.1, e2.2]

/-! ## A total of zero -/

theorem total_eq_zero_of_current_zero (buckets : List Bucket)
    (h : ∀ b ∈ buckets, ∀ f ∈ b.Funds, f.Current = 0) : total buckets = 0 := by
  rw [total_eq_sum]
  apply List.sum_eq_zero
  intro x hx
  simp only [List.mem_map] at hx
  obtain ⟨b, hb, rfl⟩ := hx
  apply List.sum_eq_zero
  intro y hy
  simp only [List.mem_map] at hy
  obtain ⟨f, hf, rfl⟩ := hy
  exact h b hb f hf

theorem bucketCurrent_eq_zero_of_current_zero (b : Bucket)
    (h : ∀ f ∈ b.Funds, f.Current = 0) : bucketCurrent b = 0 := by
  rw [bucketCurrent_eq_sum]
  apply List.sum_eq_zero
  intro y hy
  simp only [List.mem_map] at hy
  obtain ⟨f, hf, rfl⟩ := hy
  exact h f hf

/-- C12, as stated, fails: in `portfolioZero` every fund holds 0 and the
threshold 0.05 is positive, yet the engine divides by the zero total, the
quotient `bucketCurrent / total` is not a finite number, and the reason text of
the fund prints `NaN` twice. -/
theorem rebalance_zero_total_emits_nan :
    (∀ b ∈ portfolioZero, ∀ f ∈ b.Funds, f.Current = 0) ∧
    (0 : ℚ) < 1 / 20 ∧
    total portfolioZero = 0 ∧
    (FVal.ofDiv (bucketCurrent bucketZero) (total portfolioZero)).isFinite = false ∧
    (rebalance portfolioZero (1 / 20)).map (fun b => b.Funds.map Fund.Reason)
      = [["虽然偏离目标NaN%，但短期整体偏差NaN%在阈值范围内，暂不调整"]] := by
  have hT : total portfolioZero = 0 := by
    norm_num [total, portfolioZero, bucketZero, mkFund]
  refine ⟨?_, by norm_num, hT, ?_, ?_⟩
  · intro b hb f hf
    simp only [portfolioZero, List.mem_singleton] at hb
    subst hb
    simp only [bucketZero, List.mem_singleton] at hf
    subst hf
    rfl
  · rw [hT]
    norm_num [bucketZero, mkFund, bucketCurrent, FVal.ofDiv, FVal.isFinite]
  · unfold rebalance
    rw [hT]
    simp [portfolioZero, rebalanceBucket, bucketZero, mkFund, rebalanceFund, bucketDeviation,
      bucketCurrent, FVal.ofDiv, FVal.sub, FVal.abs, FVal.gtFin, FVal.mulFin, FVal.ltFin,
      fmtFixed]

/-- C12, amended: for every portfolio in which every fund's current value is 0
and every positive threshold, `rebalance` has no guard for the zero total (the
bucket deviation it computes is `0/0 = NaN`), and it emits no non-finite number
in any fund's target or diff: both are exactly 0, and the label is hold. -/
theorem rebalance_zero_total (buckets : List Bucket) (threshold : ℚ)
    (hz : ∀ b ∈ buckets, ∀ f ∈ b.Funds, f.Current = 0) (_ht : 0 < threshold)
    (b' : Bucket) (f' : Fund)
    (hb : b' ∈ rebalance buckets threshold) (hf : f' ∈ b'.Funds) :
    (∀ b ∈ buckets, bucketDeviation (total buckets) b = FVal.nan) ∧
    f'.Target = 0 ∧ f'.Diff = 0 ∧ f'.Advice = adviceHold := by
  have hT := total_eq_zero_of_current_zero buckets hz
  have hdev : ∀ b ∈ buckets, bucketDeviation (total buckets) b = FVal.nan := by
    intro b hb
    rw [hT, bucketDeviation, bucketCurrent_eq_zero_of_current_zero b (hz b hb)]
    simp [FVal.ofDiv, FVal.sub]
  refine ⟨hdev, ?_⟩
  simp only [rebalance, List.mem_map] at hb
  obtain ⟨b, hbm, rfl⟩ := hb
  simp only [rebalanceBucket, List.mem_map] at hf
  obtain ⟨f, _, rfl⟩ := hf
  have hin : outOfTolerance (total buckets) threshold b = false := by
    rw [outOfTolerance, hdev b hbm]
    rfl
  obtain ⟨hd, ha⟩ := rebalanceFund_within (total buckets) threshold b f hin
  refine ⟨?_, hd, ha⟩
  rw [rebalanceFund_Target, hT]
  ring

/-- The amended C12 at the fund of `portfolioZero`. -/
theorem rebalance_zero_total_witness :
    (∀ b ∈ portfolioZero, bucketDeviation (total portfolioZero) b = FVal.nan) ∧
    (rebalanceFund (total portfolioZero) (1 / 20) bucketZero (mkFund "甲" "000001" 0 1)).Target
      = 0 ∧
    (rebalanceFund (total portfolioZero) (1 / 20) bucketZero (mkFund "甲" "000001" 0 1)).Diff
      = 0 ∧
    (rebalanceFund (total portfolioZero) (1 / 20) bucketZero (mkFund "甲" "000001" 0 1)).Advice
      = adviceHold :=
  rebalance_zero_total portfolioZero (1 / 20)
    (by
      intro b hb f hf
      simp only [portfolioZero, List.mem_singleton] at hb
      subst hb
      simp only [bucketZero, List.mem_singleton] at hf
      subst hf
      rfl)
    (by norm_num)
    (rebalanceBucket (total portfolioZero) (1 / 20) bucketZero)
    (rebalanceFund (total portfolioZero) (1 / 20) bucketZero (mkFund "甲" "000001" 0 1))
    (by simp [rebalance, portfolioZero])
    (by simp [rebalanceBucket, bucketZero])

/-! ## The suggestions of `performRebalance` -/

/-- C13 on the code: `dbSameFundTwice` stores two funds, one in each bucket,
with the same name and code.  The search by name and code leaves only the loop
over the funds of one result bucket at a match, so `performRebalance` records
four suggestions, and the stored fund 1 (value 80) also gets the values of
fund 2 (value 20) and the other way round. -/
theorem performRebalance_same_fund_twice :
    countFunds dbSameFundTwice = 2 ∧
    ((performRebalance (1 / 20) dbSameFundTwice).2.2).map
        (fun s => (s.FundID, s.CurrentValue))
      = [(1, 80), (1, 20), (2, 80), (2, 20)] := by
  refine ⟨by decide, ?_⟩
  simp [performRebalance, buildSuggestions, dbSameFundTwice, convertDBBucketsToAPIBuckets,
    rebalance, rebalanceBucket, suggestionInBucket, rebalanceFund_Name, rebalanceFund_Code,
    rebalanceFund_Current]

/-! ## Direction of the advice and cash neutrality -/

/-- The computed differences of one bucket sum to its target minus its value. -/
theorem sum_computed_diff (T : ℚ) (b : Bucket) :
    (b.Funds.map (fun f => T * b.TargetRate * f.Weight - f.Current)).sum
      = T * b.TargetRate * sumWeights b - bucketCurrent b := by
  rw [bucketCurrent_eq_sum, sumWeights]
  induction b.Funds with
  | nil => simp
  | cons f fs ih => simp only [List.map_cons, List.sum_cons, ih]; ring

/-- In exact arithmetic the direction needs a threshold that is not negative:
with threshold -1 the second bucket of scenario B (weight sum 1, deviation
-0.3 > -1) passes the overweight test, but its only fund is told to buy.  The
callers of `rebalance` replace a threshold `<= 0` by 0.05. -/
theorem rebalance_negative_threshold_no_sell :
    0 < total scenarioB ∧ scenarioB[1]? = some bucketB2 ∧ sumWeights bucketB2 = 1 ∧
    (-1 : ℚ) < bucketCurrent bucketB2 / total scenarioB - bucketB2.TargetRate ∧
    ((rebalance scenarioB (-1)).map (fun b => b.Funds.map Fund.Advice))[1]?
      = some [adviceBuy] ∧
    adviceBuy ≠ adviceSell := by
  have hT : total scenarioB = 100 := by
    norm_num [total, scenarioB, bucketB1, bucketB2, mkFund]
  have h2 : outOfTolerance 100 (-1) bucketB2 = true := by
    norm_num [outOfTolerance, bucketB2, mkFund, bucketDeviation, bucketCurrent,
      FVal.ofDiv, FVal.sub, FVal.abs, FVal.gtFin, lt_abs]
  have e2 := rebalanceFund_out 100 (-1) bucketB2 (mkFund "乙" "000002" 20 1) h2
  refine ⟨by rw [hT]; norm_num, rfl, by norm_num [sumWeights, bucketB2, mkFund], ?_, ?_,
    by decide⟩
  · rw [hT]
    norm_num [bucketB2, mkFund, bucketCurrent]
  · unfold rebalance
    rw [hT]
    show some [(rebalanceFund 100 (-1) bucketB2 (mkFund "乙" "000002" 20 1)).Advice] = _
    rw [e2.2]
    norm_num [bucketB2, mkFund]

theorem sum_diff_rebalanceBucket_out (T t : ℚ) (b : Bucket)
    (hout : outOfTolerance T t b = true) :
    ((rebalanceBucket T t b).Funds.map Fund.Diff).sum
      = T * b.TargetRate * sumWeights b - bucketCurrent b := by
  rw [← sum_computed_diff]
  congr 1
  simp only [rebalanceBucket, List.map_map]
  apply List.map_congr_left
  intro f _
  exact (rebalanceFund_out T t b f hout).1

theorem sumDiffs_map_out (T t : ℚ) (buckets : List Bucket)
    (hout : ∀ b ∈ buckets, outOfTolerance T t b = true)
    (hw : ∀ b ∈ buckets, sumWeights b = 1) :
    sumDiffs (buckets.map (rebalanceBucket T t))
      = T * sumRates buckets - (buckets.map bucketCurrent).sum := by
  unfold sumDiffs sumRates
  induction buckets with
  | nil => simp
  | cons b bs ih =>
    have hb := hout b (List.mem_cons_self b bs)
    have ih' := ih (fun x hx => hout x (List.mem_cons_of_mem b hx))
      (fun x hx => hw x (List.mem_cons_of_mem b hx))
    simp only [List.map_cons, List.sum_cons, List.map_map] at ih' ⊢
    rw [ih', sum_diff_rebalanceBucket_out T t b hb, hw b (List.mem_cons_self b bs)]
    ring

/-- C17: cash neutrality.  For every portfolio and threshold such that every
bucket is out of tolerance, the fund weights of every bucket sum to exactly 1
and the bucket rates sum to exactly 1, the diffs that `rebalance` writes sum
to 0 over all funds. -/
theorem rebalance_cash_neutral (buckets : List Bucket) (threshold : ℚ)
    (hout : ∀ b ∈ buckets, outOfTolerance (total buckets) threshold b = true)
    (hw : ∀ b ∈ buckets, sumWeights b = 1) (hr : sumRates buckets = 1) :
    sumDiffs (rebalance buckets threshold) = 0 := by
  unfold rebalance
  rw [sumDiffs_map_out _ _ buckets hout hw, hr, mul_one, total_eq_sum]
  have e : buckets.map bucketCurrent
      = buckets.map (fun b => (b.Funds.map Fund.Current).sum) :=
    List.map_congr_left (fun b _ => bucketCurrent_eq_sum b)
  rw [e, sub_self]

/-- The cash neutrality of C17 on scenario B with threshold 0.05. -/
theorem rebalance_cash_neutral_witness :
    sumDiffs (rebalance scenarioB (1 / 20)) = 0 :=
  rebalance_cash_neutral scenarioB (1 / 20)
    (by
      intro b hb
      simp only [scenarioB, List.mem_cons, List.mem_singleton, List.not_mem_nil,
        or_false] at hb
      rcases hb with rfl | rfl <;>
        norm_num [outOfTolerance, total, scenarioB, bucketB1, bucketB2, mkFund,
          bucketDeviation, bucketCurrent, FVal.ofDiv, FVal.sub, FVal.abs, FVal.gtFin, lt_abs])
    (by
      intro b hb
      simp only [scenarioB, List.mem_cons, List.mem_singleton, List.not_mem_nil,
        or_false] at hb
      rcases hb with rfl | rfl <;> simp [sumWeights, bucketB1, bucketB2, mkFund])
    (by norm_num [sumRates, scenarioB, bucketB1, bucketB2])

/-! ## The decision rule in `float64` -/

theorem F64_rebalanceFund_out (T t : FVal) (b : F64.Bucket) (f : F64.Fund)
    (h : F64.outOfTolerance T t b = true) :
    (F64.rebalanceFund T t b f).Target = (T.mul64 b.TargetRate).mul64 f.Weight ∧
    (F64.rebalanceFund T t b f).Diff
      = ((T.mul64 b.TargetRate).mul64 f.Weight).sub64 f.Current ∧
    (F64.rebalanceFund T t b f).Advice
      = if (((T.mul64 b.TargetRate).mul64 f.Weight).sub64 f.Current).gt64 (FVal.fin 0) = true
        then adviceBuy
        else if (((T.mul64 b.TargetRate).mul64 f.Weight).sub64 f.Current).lt64 (FVal.fin 0)
          = true then adviceSell
        else adviceBuy := by
  unfold F64.outOfTolerance at h
  simp only [F64.rebalanceFund, h, if_true]
  by_cases h1 : (((T.mul64 b.TargetRate).mul64 f.Weight).sub64 f.Current).gt64 (FVal.fin 0)
      = true
  · simp [h1]
  · by_cases h2 : (((T.mul64 b.TargetRate).mul64 f.Weight).sub64 f.Current).lt64 (FVal.fin 0)
        = true
    · simp [h1, h2]
    · simp [h1, h2]

theorem F64_rebalanceFund_within (T t : FVal) (b : F64.Bucket) (f : F64.Fund)
    (h : F64.outOfTolerance T t b = false) :
    (F64.rebalanceFund T t b f).Diff = FVal.fin 0 ∧
    (F64.rebalanceFund T t b f).Advice = adviceHold := by
  unfold F64.outOfTolerance at h
  simp only [F64.rebalanceFund, h]
  exact ⟨rfl, rfl⟩

theorem F64_rebalanceFund_Current (T t : FVal) (b : F64.Bucket) (f : F64.Fund) :
    (F64.rebalanceFund T t b f).Current = f.Current := by
  simp only [F64.rebalanceFund]
  split_ifs <;> rfl

theorem F64_rebalance_getElem? (buckets : List F64.Bucket) (t : FVal) (bi : ℕ) :
    (F64.rebalance buckets t)[bi]?
      = (buckets[bi]?).map (F64.rebalanceBucket (F64.total buckets) t) := by
  simp [F64.rebalance]

theorem F64_rebalanceBucket_getElem? (T t : FVal) (b : F64.Bucket) (fi : ℕ) :
    (F64.rebalanceBucket T t b).Funds[fi]? = (b.Funds[fi]?).map (F64.rebalanceFund T t b) := by
  simp [F64.rebalanceBucket]

/-- A value is not both above and below zero. -/
theorem FVal_gt64_lt64_zero (x : FVal) (h : x.gt64 (FVal.fin 0) = true) :
    x.lt64 (FVal.fin 0) = false := by
  cases x with
  | fin a =>
    simp only [FVal.gt64, FVal.lt64, decide_eq_true_eq, decide_eq_false_iff_not, not_lt] at *
    exact h.le
  | posInf => rfl
  | negInf => simp [FVal.gt64] at h
  | nan => rfl

/-- C1, as stated, fails on the `float64` code: in `portfolioThird` (rates
0.2833333333333333 and 0.5, values 1 and 2, threshold 0.05, all of them
`float64` values) the first bucket has `|bucketCurrent/total - targetRate|`
above the threshold, but the code computes the deviation 0.04999999999999999,
takes the hold branch and writes diff 0. -/
theorem exact_out_of_tolerance_float_hold :
    round64 bucketThird.TargetRate = FVal.fin bucketThird.TargetRate ∧
    round64 threshold005 = FVal.fin threshold005 ∧
    portfolioThird[0]? = some bucketThird ∧
    threshold005 < |bucketCurrent bucketThird / total portfolioThird - bucketThird.TargetRate| ∧
    F64.bucketDeviation (F64.total (portfolioThird.map F64.ofBucket)) (F64.ofBucket bucketThird)
      = FVal.fin (900719925474099 / 18014398509481984) ∧
    (F64.rebalance (portfolioThird.map F64.ofBucket) (FVal.fin threshold005)).map
        (fun b => b.Funds.map (fun f => (f.Diff, f.Advice)))
      = [[(FVal.fin 0, adviceHold)], [(FVal.fin (-1 / 2), adviceSell)]] := by
  decide!

/-- C1, amended: for every portfolio, every threshold and every fund of a
bucket for which the test `math.Abs(bucketDeviation) > threshold`, evaluated in
`float64` as the code evaluates it, succeeds, `rebalance` writes
`diff = target - current` (in `float64`) and picks the label by the sign of
that difference alone: above zero gives buy, below zero gives sell, and
otherwise (a zero, or `NaN`) buy as well, never hold. -/
theorem rebalance_float_out_advice (buckets : List F64.Bucket) (threshold : FVal)
    (bi fi : ℕ) (b : F64.Bucket) (f : F64.Fund)
    (hb : buckets[bi]? = some b) (hf : b.Funds[fi]? = some f)
    (hout : F64.outOfTolerance (F64.total buckets) threshold b = true) :
    ∃ b' f', (F64.rebalance buckets threshold)[bi]? = some b' ∧ b'.Funds[fi]? = some f' ∧
      f'.Diff = f'.Target.sub64 f.Current ∧
      (f'.Diff.gt64 (FVal.fin 0) = true → f'.Advice = adviceBuy) ∧
      (f'.Diff.lt64 (FVal.fin 0) = true → f'.Advice = adviceSell) ∧
      (f'.Diff.gt64 (FVal.fin 0) = false → f'.Diff.lt64 (FVal.fin 0) = false →
        f'.Advice = adviceBuy) ∧
      f'.Advice ≠ adviceHold := by
  refine ⟨F64.rebalanceBucket (F64.total buckets) threshold b,
    F64.rebalanceFund (F64.total buckets) threshold b f, ?_, ?_, ?_⟩
  · rw [F64_rebalance_getElem?, hb]; rfl
  · rw [F64_rebalanceBucket_getElem?, hf]; rfl
  · obtain ⟨ht, hd, ha⟩ := F64_rebalanceFund_out (F64.total buckets) threshold b f hout
    rw [ht, hd, ha]
    refine ⟨rfl, ?_, ?_, ?_, ?_⟩
    · intro h; rw [if_pos h]
    · intro h
      have hg : ((((F64.total buckets).mul64 b.TargetRate).mul64 f.Weight).sub64
          f.Current).gt64 (FVal.fin 0) ≠ true := by
        intro hg
        rw [FVal_gt64_lt64_zero _ hg] at h
        exact absurd h (by decide)
      rw [if_neg hg, if_pos h]
    · intro h1 h2
      rw [if_neg (by rw [h1]; decide), if_neg (by rw [h2]; decide)]
    · split_ifs <;> decide

/-- The amended C1 at the second fund of `portfolioThird`, whose bucket is
seventeen points above its rate. -/
theorem rebalance_float_out_advice_witness :
    ∃ b' f', (F64.rebalance (portfolioThird.map F64.ofBucket) (FVal.fin threshold005))[1]?
        = some b' ∧ b'.Funds[0]? = some f' ∧
      f'.Diff = f'.Target.sub64 (F64.ofFund (mkFund "乙" "000002" 2 1)).Current ∧
      (f'.Diff.gt64 (FVal.fin 0) = true → f'.Advice = adviceBuy) ∧
      (f'.Diff.lt64 (FVal.fin 0) = true → f'.Advice = adviceSell) ∧
      (f'.Diff.gt64 (FVal.fin 0) = false → f'.Diff.lt64 (FVal.fin 0) = false →
        f'.Advice = adviceBuy) ∧
      f'.Advice ≠ adviceHold :=
  rebalance_float_out_advice (portfolioThird.map F64.ofBucket) (FVal.fin threshold005) 1 0
    (F64.ofBucket { Name := "长期", TargetRate := 1 / 2, Funds := [mkFund "乙" "000002" 2 1] })
    (F64.ofFund (mkFund "乙" "000002" 2 1)) rfl rfl (by decide!)

/-- C2, as stated, fails on the `float64` code: in `portfolioBoundary` (rates
0.5/0.5, values 55 and 45, threshold 0.05) the first bucket has
`|bucketCurrent/total - targetRate| = 0.05`, not above the threshold, but the
code computes the deviation 0.050000000000000044, takes the other branch and
tells the fund to sell 5. -/
theorem exact_within_tolerance_float_sell :
    round64 threshold005 = FVal.fin threshold005 ∧
    portfolioBoundary[0]? = some bucketBoundary ∧
    |bucketCurrent bucketBoundary / total portfolioBoundary - bucketBoundary.TargetRate|
      ≤ threshold005 ∧
    F64.bucketDeviation (F64.total (portfolioBoundary.map F64.ofBucket))
        (F64.ofBucket bucketBoundary)
      = FVal.fin (900719925474100 / 18014398509481984) ∧
    (F64.rebalance (portfolioBoundary.map F64.ofBucket) (FVal.fin threshold005)).map
        (fun b => b.Funds.map (fun f => (f.Diff, f.Advice)))
      = [[(FVal.fin (-5), adviceSell)], [(FVal.fin 0, adviceHold)]] := by
  decide!

/-- C2, amended: for every portfolio, every threshold and every fund of a
bucket for which the test `math.Abs(bucketDeviation) > threshold`, evaluated in
`float64` as the code evaluates it, fails (a `NaN` deviation included),
`rebalance` writes the label hold and the difference exactly 0, whatever
`target - current` is. -/
theorem rebalance_float_within_hold (buckets : List F64.Bucket) (threshold : FVal)
    (bi fi : ℕ) (b : F64.Bucket) (f : F64.Fund)
    (hb : buckets[bi]? = some b) (hf : b.Funds[fi]? = some f)
    (hin : F64.outOfTolerance (F64.total buckets) threshold b = false) :
    ∃ b' f', (F64.rebalance buckets threshold)[bi]? = some b' ∧ b'.Funds[fi]? = some f' ∧
      f'.Advice = adviceHold ∧ f'.Diff = FVal.fin 0 := by
  refine ⟨F64.rebalanceBucket (F64.total buckets) threshold b,
    F64.rebalanceFund (F64.total buckets) threshold b f, ?_, ?_, ?_⟩
  · rw [F64_rebalance_getElem?, hb]; rfl
  · rw [F64_rebalanceBucket_getElem?, hf]; rfl
  · obtain ⟨hd, ha⟩ := F64_rebalanceFund_within (F64.total buckets) threshold b f hin
    exact ⟨ha, hd⟩

/-- The amended C2 at the fund of the second bucket of `portfolioBoundary`,
for which the code computes the deviation -0.04999999999999999. -/
theorem rebalance_float_within_hold_witness :
    ∃ b' f', (F64.rebalance (portfolioBoundary.map F64.ofBucket) (FVal.fin threshold005))[1]?
        = some b' ∧ b'.Funds[0]? = some f' ∧
      f'.Advice = adviceHold ∧ f'.Diff = FVal.fin 0 :=
  rebalance_float_within_hold (portfolioBoundary.map F64.ofBucket) (FVal.fin threshold005) 1 0
    (F64.ofBucket bucketBoundaryLow) (F64.ofFund (mkFund "乙" "000002" 45 1)) rfl rfl
    (by decide!)

/-! ## Idempotence under hold in `float64` -/

theorem F64_current_rebalanceBucket (T t : FVal) (b : F64.Bucket) :
    (F64.rebalanceBucket T t b).Funds.map F64.Fund.Current
      = b.Funds.map F64.Fund.Current := by
  simp only [F64.rebalanceBucket, List.map_map]
  apply List.map_congr_left
  intro f _
  exact F64_rebalanceFund_Current T t b f

theorem F64_foldl_current (funds : List F64.Fund) (acc : FVal) :
    funds.foldl (fun acc f => acc.add64 f.Current) acc
      = (funds.map F64.Fund.Current).foldl FVal.add64 acc := by
  rw [List.foldl_map]

theorem F64_bucketCurrent_rebalanceBucket (T t : FVal) (b : F64.Bucket) :
    F64.bucketCurrent (F64.rebalanceBucket T t b) = F64.bucketCurrent b := by
  unfold F64.bucketCurrent
  rw [F64_foldl_current, F64_foldl_current, F64_current_rebalanceBucket]

theorem F64_foldl_total_map (T t : FVal) (buckets : List F64.Bucket) (acc : FVal) :
    (buckets.map (F64.rebalanceBucket T t)).foldl
        (fun acc b => b.Funds.foldl (fun acc f => acc.add64 f.Current) acc) acc
      = buckets.foldl
        (fun acc b => b.Funds.foldl (fun acc f => acc.add64 f.Current) acc) acc := by
  induction buckets generalizing acc with
  | nil => rfl
  | cons b bs ih =>
    simp only [List.map_cons, List.foldl_cons]
    rw [F64_foldl_current, F64_current_rebalanceBucket, ← F64_foldl_current, ih]

theorem F64_total_rebalance (buckets : List F64.Bucket) (t : FVal) :
    F64.total (F64.rebalance buckets t) = F64.total buckets := by
  unfold F64.total F64.rebalance
  exact F64_foldl_total_map _ t buckets _

theorem F64_outOfTolerance_rebalanceBucket (T T' t t' : FVal) (b : F64.Bucket) :
    F64.outOfTolerance T t (F64.rebalanceBucket T' t' b) = F64.outOfTolerance T t b := by
  unfold F64.outOfTolerance F64.bucketDeviation
  rw [F64_bucketCurrent_rebalanceBucket]
  rfl

/-- C7, as stated, fails on the `float64` code: the first bucket of
`portfolioBoundary` has `|bucketCurrent/total - targetRate| = 0.05`, within the
threshold 0.05, but the code computes 0.050000000000000044 on every run, so
after two runs its fund is told to sell 5, not to hold. -/
theorem exact_within_tolerance_float_twice_sell :
    round64 threshold005 = FVal.fin threshold005 ∧
    portfolioBoundary[0]? = some bucketBoundary ∧
    |bucketCurrent bucketBoundary / total portfolioBoundary - bucketBoundary.TargetRate|
      ≤ threshold005 ∧
    ((F64.rebalance
        (F64.rebalance (portfolioBoundary.map F64.ofBucket) (FVal.fin threshold005))
        (FVal.fin threshold005))[0]?).map
        (fun b => b.Funds.map (fun f => (f.Diff, f.Advice)))
      = some [(FVal.fin (-5), adviceSell)] ∧
    adviceSell ≠ adviceHold := by
  decide!

/-- C7, amended: idempotence under hold.  For every portfolio `p` and threshold
`t`, if for a bucket of `p` the test `math.Abs(bucketDeviation) > t`, evaluated
in `float64` as the code evaluates it, fails, then in
`rebalance (rebalance p t) t` the bucket at the same position has the same
number of funds and each of them has `Diff = 0` and the label hold. -/
theorem rebalance_float_twice_hold (p : List F64.Bucket) (t : FVal) (bi : ℕ)
    (b : F64.Bucket) (hb : p[bi]? = some b)
    (hin : F64.outOfTolerance (F64.total p) t b = false) :
    ∃ b'', (F64.rebalance (F64.rebalance p t) t)[bi]? = some b'' ∧
      b''.Funds.length = b.Funds.length ∧
      ∀ f'' ∈ b''.Funds, f''.Diff = FVal.fin 0 ∧ f''.Advice = adviceHold := by
  refine ⟨F64.rebalanceBucket (F64.total p) t (F64.rebalanceBucket (F64.total p) t b),
    ?_, ?_, ?_⟩
  · rw [F64_rebalance_getElem?, F64_total_rebalance, F64_rebalance_getElem?, hb]; rfl
  · simp [F64.rebalanceBucket]
  · intro f'' hf
    simp only [F64.rebalanceBucket, List.mem_map] at hf
    obtain ⟨f', _, rfl⟩ := hf
    have h2 : F64.outOfTolerance (F64.total p) t
        (F64.rebalanceBucket (F64.total p) t b) = false := by
      rw [F64_outOfTolerance_rebalanceBucket]; exact hin
    exact F64_rebalanceFund_within _ _ _ _ h2

/-- The amended C7 on the second bucket of `portfolioBoundary`. -/
theorem rebalance_float_twice_hold_witness :
    ∃ b'', (F64.rebalance
        (F64.rebalance (portfolioBoundary.map F64.ofBucket) (FVal.fin threshold005))
        (FVal.fin threshold005))[1]? = some b'' ∧
      b''.Funds.length = (F64.ofBucket bucketBoundaryLow).Funds.length ∧
      ∀ f'' ∈ b''.Funds, f''.Diff = FVal.fin 0 ∧ f''.Advice = adviceHold :=
  rebalance_float_twice_hold (portfolioBoundary.map F64.ofBucket) (FVal.fin threshold005) 1
    (F64.ofBucket bucketBoundaryLow) rfl (by decide!)

theorem pow2_eq_zpow (e : Int) : pow2 e = (2 : ℚ) ^ e := by
  unfold pow2
  split_ifs with h
  · have he : ((e.toNat : ℕ) : Int) = e := Int.toNat_of_nonneg h
    rw [Nat.cast_pow, Nat.cast_ofNat, ← zpow_natCast, he]
  · have hneg : 0 ≤ -e := by omega
    have he : (((-e).toNat : ℕ) : Int) = -e := Int.toNat_of_nonneg hneg
    rw [Nat.cast_pow, Nat.cast_ofNat, ← zpow_natCast, he, zpow_neg, one_div, inv_inv]

theorem pow2_pos (e : Int) : 0 < pow2 e := by
  rw [pow2_eq_zpow]
  exact zpow_pos (by norm_num) e

/-- What `roundHalfEven` returns, in terms of the integer part `k` of `x`. -/
theorem roundHalfEven_spec (x : ℚ) (hx : 0 ≤ x) :
    ∃ k : ℕ, (k : ℚ) ≤ x ∧ x < k + 1 ∧
      ((2 * x < 2 * k + 1 ∧ roundHalfEven x = k) ∨
        (2 * k + 1 < 2 * x ∧ roundHalfEven x = k + 1) ∨
        (2 * x = 2 * k + 1 ∧
          ((k % 2 = 0 ∧ roundHalfEven x = k) ∨ (k % 2 = 1 ∧ roundHalfEven x = k + 1)))) := by
  have hnum : 0 ≤ x.num := Rat.num_nonneg.mpr hx
  have hd : 0 < x.den := x.den_pos
  have hN : (x.num.natAbs : ℚ) = (x.num : ℚ) := by
    rw [Nat.cast_natAbs, abs_of_nonneg hnum]
  have hD : (0 : ℚ) < (x.den : ℚ) := by exact_mod_cast hd
  have hxd : x * (x.den : ℚ) = (x.num.natAbs : ℚ) := by
    rw [hN]
    exact Rat.mul_den_eq_num x
  have hdiv : x.den * (x.num.natAbs / x.den) + x.num.natAbs % x.den = x.num.natAbs :=
    Nat.div_add_mod _ _
  have hdivq : (x.den : ℚ) * ((x.num.natAbs / x.den : ℕ) : ℚ)
      + ((x.num.natAbs % x.den : ℕ) : ℚ) = (x.num.natAbs : ℚ) := by
    exact_mod_cast hdiv
  have hr : x.num.natAbs % x.den < x.den := Nat.mod_lt _ hd
  have hrq : ((x.num.natAbs % x.den : ℕ) : ℚ) < (x.den : ℚ) := by exact_mod_cast hr
  have hr0 : (0 : ℚ) ≤ ((x.num.natAbs % x.den : ℕ) : ℚ) := Nat.cast_nonneg _
  refine ⟨x.num.natAbs / x.den, ?_, ?_, ?_⟩
  · by_contra h
    push_neg at h
    nlinarith
  · by_contra h
    push_neg at h
    nlinarith
  · unfold roundHalfEven
    simp only
    by_cases h1 : 2 * (x.num.natAbs % x.den) < x.den
    · rw [if_pos h1]
      left
      refine ⟨?_, rfl⟩
      have h1q : 2 * ((x.num.natAbs % x.den : ℕ) : ℚ) < (x.den : ℚ) := by exact_mod_cast h1
      by_contra h
      push_neg at h
      nlinarith
    · rw [if_neg h1]
      by_cases h2 : x.den < 2 * (x.num.natAbs % x.den)
      · rw [if_pos h2]
        right; left
        refine ⟨?_, rfl⟩
        have h2q : (x.den : ℚ) < 2 * ((x.num.natAbs % x.den : ℕ) : ℚ) := by exact_mod_cast h2
        by_contra h
        push_neg at h
        nlinarith
      · rw [if_neg h2]
        right; right
        have heq : 2 * (x.num.natAbs % x.den) = x.den := by omega
        have heqq : 2 * ((x.num.natAbs % x.den : ℕ) : ℚ) = (x.den : ℚ) := by exact_mod_cast heq
        constructor
        · have : (2 * x - (2 * ((x.num.natAbs / x.den : ℕ) : ℚ) + 1)) * (x.den : ℚ) = 0 := by
            nlinarith
          rcases mul_eq_zero.mp this with h | h
          · linarith
          · exact absurd h hD.ne'
        · by_cases hk : x.num.natAbs / x.den % 2 = 0
          · rw [if_pos hk]; exact Or.inl ⟨hk, rfl⟩
          · rw [if_neg hk]; exact Or.inr ⟨by omega, rfl⟩

/-- The result of `roundHalfEven` is within one half of its argument. -/
theorem roundHalfEven_error (x : ℚ) (hx : 0 ≤ x) :
    |(roundHalfEven x : ℚ) - x| ≤ 1 / 2 := by
  obtain ⟨k, k1, k2, k3⟩ := roundHalfEven_spec x hx
  rw [abs_le]
  rcases k3 with ⟨h, e⟩ | ⟨h, e⟩ | ⟨h, ⟨_, e⟩ | ⟨_, e⟩⟩ <;> rw [e] <;> push_cast <;>
    constructor <;> linarith

theorem quantum64_pos (a : ℚ) : 0 < quantum64 a :=
  pow2_pos _

/-- The rounded magnitude is within half a spacing of the exact one: it is a
nearest multiple of the spacing. -/
theorem roundMag_error (a : ℚ) (ha : 0 ≤ a) :
    |roundMag a - a| ≤ quantum64 a / 2 := by
  have hq := quantum64_pos a
  have h := roundHalfEven_error (a / quantum64 a) (div_nonneg ha hq.le)
  have e : roundMag a - a
      = ((roundHalfEven (a / quantum64 a) : ℚ) - a / quantum64 a) * quantum64 a := by
    unfold roundMag
    field_simp
  rw [e, abs_mul, abs_of_pos hq]
  calc |(roundHalfEven (a / quantum64 a) : ℚ) - a / quantum64 a| * quantum64 a
      ≤ 1 / 2 * quantum64 a := mul_le_mul_of_nonneg_right h hq.le
    _ = quantum64 a / 2 := by ring

/-- C15, as stated, fails: on the default store `addFund` accepts a fund with
the value -5 and the weight -0.1 and stores it in the first bucket, and
`updateFund` accepts the value "-5" for the first fund and stores -5. -/
theorem handlers_accept_negative :
    negativeAddRequest.Current.lt64 (FVal.fin 0) = true ∧
    negativeAddRequest.Weight.lt64 (FVal.fin 0) = true ∧
    (F64.addFund defaultStore negativeAddRequest).1.Success = true ∧
    ((F64.addFund defaultStore negativeAddRequest).2.Buckets.map
        (fun b => b.Funds.map (fun f => (f.Current, f.Weight)))).head?
      = some [(FVal.fin 20, FVal.fin 1), (FVal.fin (-5), FVal.fin (double (-1 / 10)))] ∧
    parseMinusFive negativeUpdateRequest.Value = some (FVal.fin (-5)) ∧
    (F64.updateFund parseMinusFive defaultStore negativeUpdateRequest).1.Success = true ∧
    ((F64.updateFund parseMinusFive defaultStore negativeUpdateRequest).2.Buckets.map
        (fun b => b.Funds.map (fun f => f.Current))).head?
      = some [FVal.fin (-5)] := by
  decide!

theorem F64_addFund_refused (store : F64.Store) (req : F64.AddFundRequest)
    (h : (F64.addFund store req).1.Success = false) :
    (F64.addFund store req).2 = store ∧
    (req.BucketIndex < 0 ∨ req.BucketIndex ≥ (store.Buckets.length : Int) ∨
      ∃ bucket, store.Buckets[req.BucketIndex.toNat]? = some bucket ∧
        ((F64.dbTotalWeight bucket.Funds).add64 req.Weight).gt64 (FVal.fin 1) = true) := by
  unfold F64.addFund at h ⊢
  simp only at h ⊢
  by_cases h1 : req.BucketIndex < 0 ∨ req.BucketIndex ≥ (store.Buckets.length : Int)
  · rw [if_pos h1]
    exact ⟨rfl, by tauto⟩
  rw [if_neg h1] at h ⊢
  have hlt : req.BucketIndex.toNat < store.Buckets.length := by omega
  have hk : store.Buckets[req.BucketIndex.toNat]?
      = some store.Buckets[req.BucketIndex.toNat] := List.getElem?_eq_getElem hlt
  rw [hk] at h ⊢
  simp only at h ⊢
  by_cases h2 : ((F64.dbTotalWeight store.Buckets[req.BucketIndex.toNat].Funds).add64
      req.Weight).gt64 (FVal.fin 1) = true
  · rw [if_pos h2]
    exact ⟨rfl, Or.inr (Or.inr ⟨_, rfl, h2⟩)⟩
  · rw [if_neg h2] at h
    exact absurd h (by simp)

theorem F64_validateUpdate_some (parseFloat : String → Option FVal) (bucket : F64.DBBucket)
    (req : F64.UpdateFundRequest) (message : String)
    (h : F64.validateUpdate parseFloat bucket req = some message) :
    (req.Field ≠ "name" ∧ req.Field ≠ "code" ∧ req.Field ≠ "current" ∧
      req.Field ≠ "weight") ∨
    ((req.Field = "current" ∨ req.Field = "weight") ∧ parseFloat req.Value = none) ∨
    (req.Field = "weight" ∧ ∃ v, parseFloat req.Value = some v ∧
      ((F64.dbTotalWeightExcept req.FundIndex.toNat 0 (FVal.fin 0) bucket.Funds).add64
        v).gt64 (FVal.fin 1) = true) := by
  unfold F64.validateUpdate at h
  by_cases h1 : req.Field = "name"
  · simp [h1] at h
  by_cases h2 : req.Field = "code"
  · simp [h2] at h
  by_cases h3 : req.Field = "current"
  · rcases hp : parseFloat req.Value with _ | v
    · exact Or.inr (Or.inl ⟨Or.inl h3, rfl⟩)
    · simp [h3, hp] at h
  by_cases h4 : req.Field = "weight"
  · rcases hp : parseFloat req.Value with _ | v
    · exact Or.inr (Or.inl ⟨Or.inr h4, rfl⟩)
    · by_cases h5 : ((F64.dbTotalWeightExcept req.FundIndex.toNat 0 (FVal.fin 0)
          bucket.Funds).add64 v).gt64 (FVal.fin 1) = true
      · exact Or.inr (Or.inr ⟨h4, v, rfl, h5⟩)
      · simp [h4, hp, h5] at h
  exact Or.inl ⟨h1, h2, h3, h4⟩

theorem F64_updateFund_refused (parseFloat : String → Option FVal) (store : F64.Store)
    (req : F64.UpdateFundRequest)
    (h : (F64.updateFund parseFloat store req).1.Success = false) :
    (F64.updateFund parseFloat store req).2 = store ∧
    (req.BucketIndex < 0 ∨ req.BucketIndex ≥ (store.Buckets.length : Int) ∨
      ∃ bucket, store.Buckets[req.BucketIndex.toNat]? = some bucket ∧
        (req.FundIndex < 0 ∨ req.FundIndex ≥ (bucket.Funds.length : Int) ∨
          (req.Field ≠ "name" ∧ req.Field ≠ "code" ∧ req.Field ≠ "current" ∧
            req.Field ≠ "weight") ∨
          ((req.Field = "current" ∨ req.Field = "weight") ∧ parseFloat req.Value = none) ∨
          (req.Field = "weight" ∧ ∃ v, parseFloat req.Value = some v ∧
            ((F64.dbTotalWeightExcept req.FundIndex.toNat 0 (FVal.fin 0) bucket.Funds).add64
              v).gt64 (FVal.fin 1) = true))) := by
  unfold F64.updateFund at h ⊢
  simp only at h ⊢
  by_cases h1 : req.BucketIndex < 0 ∨ req.BucketIndex ≥ (store.Buckets.length : Int)
  · rw [if_pos h1]
    exact ⟨rfl, by tauto⟩
  rw [if_neg h1] at h ⊢
  have hlt : req.BucketIndex.toNat < store.Buckets.length := by omega
  have hk : store.Buckets[req.BucketIndex.toNat]?
      = some store.Buckets[req.BucketIndex.toNat] := List.getElem?_eq_getElem hlt
  rw [hk] at h ⊢
  simp only at h ⊢
  generalize store.Buckets[req.BucketIndex.toNat] = bucket at h ⊢
  by_cases h2 : req.FundIndex < 0 ∨ req.FundIndex ≥ (bucket.Funds.length : Int)
  · rw [if_pos h2]
    refine ⟨rfl, Or.inr (Or.inr ⟨bucket, rfl, ?_⟩)⟩
    tauto
  rw [if_neg h2] at h ⊢
  have hlt2 : req.FundIndex.toNat < bucket.Funds.length := by omega
  have hf : bucket.Funds[req.FundIndex.toNat]?
      = some bucket.Funds[req.FundIndex.toNat] := List.getElem?_eq_getElem hlt2
  rw [hf] at h ⊢
  simp only at h ⊢
  rcases hv : F64.validateUpdate parseFloat bucket req with _ | message
  · rw [hv] at h
    exact absurd h (by simp)
  · simp only
    refine ⟨trivial, Or.inr (Or.inr ⟨bucket, rfl, Or.inr (Or.inr ?_)⟩)⟩
    exact F64_validateUpdate_some parseFloat bucket req message hv

/-- C15, amended: the collaborator does not reject a request for the sign of a
value or a weight.  `addFund` refuses a request only when its bucket index is
out of range or the `float64` test `totalWeight + weight > 1.0` succeeds;
`updateFund` refuses a request only when an index is out of range, the field is
none of `name`, `code`, `current`, `weight`, the value of `current` or `weight`
is not a number, or the test `totalWeight + val > 1.0` on the other weights
succeeds.  Every refused request is answered with an error and leaves the
stored funds unchanged. -/
theorem handlers_refuse_only (parseFloat : String → Option FVal) (store : F64.Store)
    (addReq : F64.AddFundRequest) (updReq : F64.UpdateFundRequest) :
    ((F64.addFund store addReq).1.Success = false →
      (F64.addFund store addReq).2 = store ∧
      (addReq.BucketIndex < 0 ∨ addReq.BucketIndex ≥ (store.Buckets.length : Int) ∨
        ∃ bucket, store.Buckets[addReq.BucketIndex.toNat]? = some bucket ∧
          ((F64.dbTotalWeight bucket.Funds).add64 addReq.Weight).gt64 (FVal.fin 1) = true)) ∧
    ((F64.updateFund parseFloat store updReq).1.Success = false →
      (F64.updateFund parseFloat store updReq).2 = store ∧
      (updReq.BucketIndex < 0 ∨ updReq.BucketIndex ≥ (store.Buckets.length : Int) ∨
        ∃ bucket, store.Buckets[updReq.BucketIndex.toNat]? = some bucket ∧
          (updReq.FundIndex < 0 ∨ updReq.FundIndex ≥ (bucket.Funds.length : Int) ∨
            (updReq.Field ≠ "name" ∧ updReq.Field ≠ "code" ∧ updReq.Field ≠ "current" ∧
              updReq.Field ≠ "weight") ∨
            ((updReq.Field = "current" ∨ updReq.Field = "weight") ∧
              parseFloat updReq.Value = none) ∨
            (updReq.Field = "weight" ∧ ∃ v, parseFloat updReq.Value = some v ∧
              ((F64.dbTotalWeightExcept updReq.FundIndex.toNat 0 (FVal.fin 0)
                bucket.Funds).add64 v).gt64 (FVal.fin 1) = true)))) :=
  ⟨F64_addFund_refused store addReq, F64_updateFund_refused parseFloat store updReq⟩

end FundRebalance
